import Mathlib

/-!
# Inventory client of the checkout service (`src/checkout/inventory_client.go`)

A shallow embedding of the four remote operations of `InventoryServiceClient`
and of its constructor, together with the parts of the Go standard library the
operations are defined by: `fmt.Sprintf`/`fmt.Errorf` with `%s`, `%d`, `%w`,
`os.Getenv`, `encoding/json` (`Marshal` and `Decoder.Decode` for the record
types of this file), and the request/response view of `net/http`.

Conventions of the embedding.

* HTTP bodies, URLs and the strings the client passes or receives are sequences of
  Unicode code points (`String`, processed as `List Char`): well-formed UTF-8, as
  the wire contract says.  The strings of an `InventoryItem` are byte sequences
  (`GoString`), as a Go `string` is: the item is also a value that a service encodes,
  and `json.Marshal` rewrites the bytes that are not UTF-8.  Bytes appear besides
  where a URL query is percent-decoded.
* Go `int`, `int32`, `int64` are `Int`; the range checks of the JSON decoder
  are explicit.
* A nil pointer, nil slice or nil map is `none`.
* The network (one round trip of the transport) and `net/url` (`url.Parse` as
  called by `http.NewRequestWithContext`, and the resolution of a `Location`) are
  parameters, collected in `Env`; `httpClient.Do` is the loop of `http.Client` with
  its default redirect policy over them.
* A response carries the whole text of its body: a read of the body that fails part-way
  is not modelled.
* Log lines are not modelled; span attributes, the requests handed to
  `httpClient.Do` and the round trips made for them are recorded in the outcome of
  every operation.
* `encoding/json` is modelled for the destinations that occur here (structs of
  `bool`, `string`, `int32`, `int64` and `map[string]bool`), with the string escapes
  that `Marshal` writes since Go 1.22.  The scanner runs on fuel; `scan_fuel` and
  `readValue_complete` show that the fuel `readValue` provides is never what makes it
  fail.
-/

namespace Inventory

/-! ## Formatting (`fmt`, `strconv`) -/

/-- Decimal rendering of an integer, as `%d` and `strconv.FormatInt(n, 10)` give it. -/
def fmtInt (n : Int) : List Char :=
  if n < 0 then '-' :: Nat.toDigits 10 n.natAbs else Nat.toDigits 10 n.natAbs

/-! ## Errors -/

/-- The failures of `json.Decoder.Decode`: the stream did not yield a complete JSON
value (`SyntaxError`, `io.EOF`, `io.ErrUnexpectedEOF`), or a value did not fit the Go
type it was stored into (`UnmarshalTypeError`). -/
inductive JsonError where
  | malformed
  | typeMismatch
  deriving DecidableEq, Repr

/-- Go error values, as far as this client builds or forwards them. -/
inductive GoError where
  /-- An error made outside the client (transport, URL parsing), with its message. -/
  | external (msg : String)
  /-- An error returned by the JSON decoder. -/
  | json (e : JsonError)
  /-- The value of `fmt.Errorf` for a format without `%w`: only a message. -/
  | errorf (msg : String)
  /-- The value of `fmt.Errorf(text + "%w", cause)`. -/
  | wrapf (text : String) (cause : GoError)
  deriving DecidableEq, Repr

/-- A Go `string`: any sequence of bytes. -/
abbrev GoString := List Nat

/-- The UTF-8 encoding of a code point, as bytes. -/
def utf8Bytes (c : Char) : List Nat :=
  if c.toNat < 0x80 then [c.toNat]
  else if c.toNat < 0x800 then [0xC0 + c.toNat / 64, 0x80 + c.toNat % 64]
  else if c.toNat < 0x10000 then
    [0xE0 + c.toNat / 4096, 0x80 + c.toNat / 64 % 64, 0x80 + c.toNat % 64]
  else
    [0xF0 + c.toNat / 262144, 0x80 + c.toNat / 4096 % 64, 0x80 + c.toNat / 64 % 64,
      0x80 + c.toNat % 64]

/-- The bytes of a text: the Go string that holds it. -/
def goBytes : List Char → GoString
  | [] => []
  | c :: cs => utf8Bytes c ++ goBytes cs

/-- A Go string is valid UTF-8 when it is the encoding of a sequence of code points. -/
def validUTF8 (s : GoString) : Prop := ∃ text : List Char, goBytes text = s

/-- The function `utf8.DecodeRuneInString` on a non-empty string: the rune at the front
and its width in bytes, or `none` where Go returns `(RuneError, 1)`: a byte that starts
no encoding, an encoding cut short, or a second byte outside the range its first byte
accepts (which refuses over-long forms, surrogates and values above U+10FFFF). -/
def decodeRune (s : GoString) : Option (Char × Nat) :=
  match s with
  | [] => none
  | b0 :: r0 =>
    if b0 < 0x80 then some (Char.ofNat b0, 1)
    else if b0 < 0xC2 then none
    else if b0 < 0xE0 then
      match r0 with
      | b1 :: _ =>
        if 0x80 ≤ b1 ∧ b1 ≤ 0xBF then some (Char.ofNat (b0 % 32 * 64 + b1 % 64), 2) else none
      | [] => none
    else if b0 < 0xF0 then
      match r0 with
      | b1 :: b2 :: _ =>
        if (if b0 = 0xE0 then 0xA0 else 0x80) ≤ b1 ∧ b1 ≤ (if b0 = 0xED then 0x9F else 0xBF)
            ∧ 0x80 ≤ b2 ∧ b2 ≤ 0xBF then
          some (Char.ofNat (b0 % 16 * 4096 + b1 % 64 * 64 + b2 % 64), 3)
        else none
      | _ => none
    else if b0 < 0xF5 then
      match r0 with
      | b1 :: b2 :: b3 :: _ =>
        if (if b0 = 0xF0 then 0x90 else 0x80) ≤ b1 ∧ b1 ≤ (if b0 = 0xF4 then 0x8F else 0xBF)
            ∧ 0x80 ≤ b2 ∧ b2 ≤ 0xBF ∧ 0x80 ≤ b3 ∧ b3 ≤ 0xBF then
          some (Char.ofNat (b0 % 8 * 262144 + b1 % 64 * 4096 + b2 % 64 * 64 + b3 % 64), 4)
        else none
      | _ => none
    else none

/-! ## JSON texts (`encoding/json`, scanner and `unquote`) -/

/-- A JSON value as the decoder sees it; a number keeps its literal text. -/
inductive JVal where
  | null
  | bool (b : Bool)
  | num (lit : List Char)
  | str (s : List Char)
  | arr (items : List JVal)
  | obj (members : List (List Char × JVal))

/-- The scanner's `isSpace`. -/
def isSpace (c : Char) : Bool :=
  c = ' ' || c = '\t' || c = '\r' || c = '\n'

/-- Skip insignificant white space. -/
def skipSpace : List Char → List Char
  | [] => []
  | c :: cs => if isSpace c then skipSpace cs else c :: cs

/-- A decimal digit, `0` to `9`. -/
def isDigit (c : Char) : Bool := decide (48 ≤ c.toNat) && decide (c.toNat ≤ 57)

/-- The longest run of decimal digits at the front, and what follows it. -/
def takeDigits : List Char → List Char × List Char
  | [] => ([], [])
  | c :: cs =>
    if isDigit c then ((c :: (takeDigits cs).1), (takeDigits cs).2) else ([], c :: cs)

/-- Optional exponent of a number literal (`stateE`, `stateESign`, `stateE0`). -/
def scanExponent (cs : List Char) : Option (List Char × List Char) :=
  match cs with
  | [] => some ([], [])
  | c :: r =>
    if c = 'e' || c = 'E' then
      match r with
      | [] => none
      | s :: r1 =>
        if s = '+' || s = '-' then
          match takeDigits r1 with
          | ([], _) => none
          | (ds, r2) => some (c :: s :: ds, r2)
        else
          match takeDigits r with
          | ([], _) => none
          | (ds, r2) => some (c :: ds, r2)
    else some ([], cs)

/-- Optional fraction of a number literal (`stateDot`, `stateDot0`). -/
def scanFraction (cs : List Char) : Option (List Char × List Char) :=
  match cs with
  | [] => some ([], [])
  | c :: r =>
    if c = '.' then
      match takeDigits r with
      | ([], _) => none
      | (ds, r1) => some (c :: ds, r1)
    else some ([], cs)

/-- Integer part of a number literal after the sign (`state0`, `state1`). -/
def scanIntPart (cs : List Char) : Option (List Char × List Char) :=
  match cs with
  | [] => none
  | c :: r =>
    if c = '0' then some ([c], r)
    else if isDigit c then some (c :: (takeDigits r).1, (takeDigits r).2)
    else none

/-- A number literal at the front of the input: its text and the rest. -/
def scanNumber (cs : List Char) : Option (List Char × List Char) :=
  let sign : List Char := match cs with
    | '-' :: _ => ['-']
    | _ => []
  let afterSign : List Char := match cs with
    | '-' :: r => r
    | _ => cs
  match scanIntPart afterSign with
  | none => none
  | some (ip, r1) =>
    match scanFraction r1 with
    | none => none
    | some (fp, r2) =>
      match scanExponent r2 with
      | none => none
      | some (ep, r3) => some (sign ++ ip ++ fp ++ ep, r3)

/-- Value of a hexadecimal digit. -/
def hexVal (c : Char) : Option Nat :=
  if 48 ≤ c.toNat ∧ c.toNat ≤ 57 then some (c.toNat - 48)
  else if 97 ≤ c.toNat ∧ c.toNat ≤ 102 then some (c.toNat - 87)
  else if 65 ≤ c.toNat ∧ c.toNat ≤ 70 then some (c.toNat - 55)
  else none

/-- The four hexadecimal digits of a `\u` escape (`getu4`). -/
def hex4 (a b c d : Char) : Option Nat :=
  match hexVal a, hexVal b, hexVal c, hexVal d with
  | some x, some y, some z, some w => some (((x * 16 + y) * 16 + z) * 16 + w)
  | _, _, _, _ => none

/-- One unit of a string literal: a character standing for itself or written as a
simple escape, or a `\uXXXX` escape with its 16-bit value. -/
inductive StrUnit where
  | lit (c : Char)
  | u4 (r : Nat)
  deriving DecidableEq, Repr

/-- The character of a one-letter escape (`stateInStringEsc`, `unquote`). -/
def simpleEscape (c : Char) : Option Char :=
  if c = '"' then some '"'
  else if c = '\\' then some '\\'
  else if c = '/' then some '/'
  else if c = 'b' then some (Char.ofNat 8)
  else if c = 'f' then some (Char.ofNat 12)
  else if c = 'n' then some '\n'
  else if c = 'r' then some '\r'
  else if c = 't' then some '\t'
  else none

/-- The inside of a string literal, after the opening quote and up to the closing
one (`stateInString`): the units read and the input after the closing quote.  A raw
control character, an unknown escape and an unterminated literal are errors. -/
def scanStringLit : List Char → Option (List StrUnit × List Char)
  | [] => none
  | c :: cs =>
    if c = '"' then some ([], cs)
    else if c = '\\' then
      match cs with
      | [] => none
      | e :: es =>
        if e = 'u' then
          match es with
          | a :: b :: x :: d :: rest =>
            match hex4 a b x d with
            | none => none
            | some r =>
              match scanStringLit rest with
              | none => none
              | some (us, out) => some (StrUnit.u4 r :: us, out)
          | _ => none
        else
          match simpleEscape e with
          | none => none
          | some ch =>
            match scanStringLit es with
            | none => none
            | some (us, out) => some (StrUnit.lit ch :: us, out)
    else if c.toNat < 32 then none
    else
      match scanStringLit cs with
      | none => none
      | some (us, out) => some (StrUnit.lit c :: us, out)

/-- The rune `unicode.ReplacementChar`. -/
def replacementChar : Char := Char.ofNat 0xFFFD

/-- The test `utf16.IsSurrogate`. -/
def isSurrogate (r : Nat) : Bool := 0xD800 ≤ r && r < 0xE000

/-- The function `utf16.DecodeRune` on a high and a low half, `none` standing for
the replacement character it returns on anything else. -/
def decodeSurrogates (r1 r2 : Nat) : Option Char :=
  if 0xD800 ≤ r1 ∧ r1 < 0xDC00 ∧ 0xDC00 ≤ r2 ∧ r2 < 0xE000 then
    some (Char.ofNat ((r1 - 0xD800) * 1024 + (r2 - 0xDC00) + 0x10000))
  else none

/-- The decoded text of a string literal (`unquote`): a `\u` escape that is half of
a surrogate pair is joined with a following low half, and replaced by U+FFFD when no
such half follows. -/
def unquoteUnits : List StrUnit → List Char
  | [] => []
  | StrUnit.lit c :: us => c :: unquoteUnits us
  | [StrUnit.u4 r] => [if isSurrogate r then replacementChar else Char.ofNat r]
  | StrUnit.u4 r :: StrUnit.lit c :: us =>
    (if isSurrogate r then replacementChar else Char.ofNat r) :: c :: unquoteUnits us
  | StrUnit.u4 r :: StrUnit.u4 r2 :: us =>
    if isSurrogate r then
      match decodeSurrogates r r2 with
      | some ch => ch :: unquoteUnits us
      | none => replacementChar :: unquoteUnits (StrUnit.u4 r2 :: us)
    else Char.ofNat r :: unquoteUnits (StrUnit.u4 r2 :: us)

/-- The scanner's `maxNestingDepth`. -/
def maxNestingDepth : Nat := 10000

mutual
/-- The first JSON value of the input, after optional white space, and the input
that follows it.  `fuel` bounds the number of values and members visited; `depth` is
the number of arrays and objects currently open. -/
def scanValue : Nat → Nat → List Char → Option (JVal × List Char)
  | 0, _, _ => none
  | fuel + 1, depth, cs =>
    match skipSpace cs with
    | [] => none
    | c :: r =>
      if c = '{' then
        if maxNestingDepth < depth + 1 then none
        else
          match skipSpace r with
          | [] => none
          | c1 :: r1 =>
            if c1 = '}' then some (JVal.obj [], r1)
            else
              match scanMembers fuel (depth + 1) (c1 :: r1) with
              | none => none
              | some (ms, out) => some (JVal.obj ms, out)
      else if c = '[' then
        if maxNestingDepth < depth + 1 then none
        else
          match skipSpace r with
          | [] => none
          | c1 :: r1 =>
            if c1 = ']' then some (JVal.arr [], r1)
            else
              match scanElems fuel (depth + 1) (c1 :: r1) with
              | none => none
              | some (vs, out) => some (JVal.arr vs, out)
      else if c = '"' then
        match scanStringLit r with
        | none => none
        | some (us, out) => some (JVal.str (unquoteUnits us), out)
      else if c = '-' || isDigit c then
        match scanNumber (c :: r) with
        | none => none
        | some (lit, out) => some (JVal.num lit, out)
      else if c = 't' then
        match r with
        | 'r' :: 'u' :: 'e' :: out => some (JVal.bool true, out)
        | _ => none
      else if c = 'f' then
        match r with
        | 'a' :: 'l' :: 's' :: 'e' :: out => some (JVal.bool false, out)
        | _ => none
      else if c = 'n' then
        match r with
        | 'u' :: 'l' :: 'l' :: out => some (JVal.null, out)
        | _ => none
      else none
/-- The members of an object from its first key on (white space before the key
already skipped), up to and including the closing brace. -/
def scanMembers : Nat → Nat → List Char → Option (List (List Char × JVal) × List Char)
  | 0, _, _ => none
  | fuel + 1, depth, cs =>
    match cs with
    | [] => none
    | q :: r =>
      if q = '"' then
        match scanStringLit r with
        | none => none
        | some (ku, r1) =>
          match skipSpace r1 with
          | [] => none
          | colon :: r2 =>
            if colon = ':' then
              match scanValue fuel depth r2 with
              | none => none
              | some (v, r3) =>
                match skipSpace r3 with
                | [] => none
                | sep :: r4 =>
                  if sep = ',' then
                    match scanMembers fuel depth (skipSpace r4) with
                    | none => none
                    | some (ms, out) => some ((unquoteUnits ku, v) :: ms, out)
                  else if sep = '}' then some ([(unquoteUnits ku, v)], r4)
                  else none
            else none
      else none
/-- The elements of an array from its first element on, up to and including the
closing bracket. -/
def scanElems : Nat → Nat → List Char → Option (List JVal × List Char)
  | 0, _, _ => none
  | fuel + 1, depth, cs =>
    match scanValue fuel depth cs with
    | none => none
    | some (v, r1) =>
      match skipSpace r1 with
      | [] => none
      | sep :: r2 =>
        if sep = ',' then
          match scanElems fuel depth r2 with
          | none => none
          | some (vs, out) => some (v :: vs, out)
        else if sep = ']' then some ([v], r2)
        else none
end

/-- What `Decoder.readValue` hands to the decoder for a fresh decoder on `body`: the
first JSON value of the stream.  Input after that value is left unread. -/
def readValue (body : List Char) : Option (JVal × List Char) :=
  scanValue (body.length + 1) 0 body

/-! ## Decoding into Go values (`encoding/json`, `decodeState`) -/

/-- Case folding of `foldName`: ASCII letters go to upper case, and U+017F and U+212A
go to the least members `S` and `K` of their fold orbits.  Every other rune is left
alone: it folds to a rune outside ASCII, so it matches no letter of a field name of
this file either way. -/
def foldRune (c : Char) : Char :=
  if 97 ≤ c.toNat ∧ c.toNat ≤ 122 then Char.ofNat (c.toNat - 32)
  else if c = Char.ofNat 0x17F then 'S'
  else if c = Char.ofNat 0x212A then 'K'
  else c

def foldName (s : List Char) : List Char := s.map foldRune

/-- The struct field an object key is stored into: the field of exactly that name,
else the first field whose name equals the key up to case folding. -/
def findField (fields : List String) (key : List Char) : Option String :=
  match fields.find? (fun f => decide (f.data = key)) with
  | some f => some f
  | none => fields.find? (fun f => decide (foldName f.data = foldName key))

/-- Value of a non-empty run of decimal digits, read into `acc`. -/
def parseDigits : Nat → List Char → Option Nat
  | acc, [] => some acc
  | acc, c :: cs => if isDigit c then parseDigits (acc * 10 + (c.toNat - 48)) cs else none

/-- The call `strconv.ParseInt(s, 10, 64)`: an optional sign and decimal digits,
within the range of `int64`. -/
def parseInt64 (s : List Char) : Option Int :=
  let neg : Bool := match s with
    | c :: _ => decide (c = '-')
    | [] => false
  let digits : List Char := match s with
    | c :: r => if c = '-' ∨ c = '+' then r else s
    | [] => []
  match digits with
  | [] => none
  | _ :: _ =>
    match parseDigits 0 digits with
    | none => none
    | some m =>
      if neg then (if m ≤ 2 ^ 63 then some (-(m : Int)) else none)
      else (if m < 2 ^ 63 then some (m : Int) else none)

/-- Whether `n` is a value of the signed integer type of `bits` bits (the negation of
`reflect.Value.OverflowInt`). -/
def fitsInt (bits : Nat) (n : Int) : Bool :=
  decide (-(2 ^ (bits - 1) : Int) ≤ n) && decide (n < (2 ^ (bits - 1) : Int))

/-- Store a JSON value into a `bool`: `none` is an `UnmarshalTypeError`, which leaves
the destination as it was; `null` is accepted and changes nothing. -/
def storeBool (cur : Bool) : JVal → Option Bool
  | JVal.bool b => some b
  | JVal.null => some cur
  | _ => none

/-- Store a JSON value into a `string`. -/
def storeString (cur : String) : JVal → Option String
  | JVal.str s => some (String.mk s)
  | JVal.null => some cur
  | _ => none

/-- Store a JSON value into a `string` held as bytes: the decoded text, encoded. -/
def storeGoString (cur : GoString) : JVal → Option GoString
  | JVal.str s => some (goBytes s)
  | JVal.null => some cur
  | _ => none

/-- Store a JSON value into a signed integer of `bits` bits. -/
def storeInt (bits : Nat) (cur : Int) : JVal → Option Int
  | JVal.num lit =>
    match parseInt64 lit with
    | some n => if fitsInt bits n then some n else none
    | none => none
  | JVal.null => some cur
  | _ => none

/-- A Go `map[string]bool` that is not nil: its entries, one per key. -/
abbrev BoolMap := List (String × Bool)

/-- The assignment `m[k] = b`. -/
def BoolMap.set (m : BoolMap) (k : String) (b : Bool) : BoolMap :=
  if m.any (fun e => decide (e.1 = k)) then
    m.map (fun e => if e.1 = k then (k, b) else e)
  else m ++ [(k, b)]

/-- The lookup `m[k]` with its presence flag. -/
def BoolMap.get (m : BoolMap) (k : String) : Option Bool :=
  (m.find? (fun e => decide (e.1 = k))).map (fun e => e.2)

/-- One member of a JSON object stored into a `map[string]bool`: the element starts
from `false`, and the entry is written also when the value did not fit.  The second
component records a type error. -/
def storeMapElem (st : BoolMap × Bool) (m : List Char × JVal) : BoolMap × Bool :=
  match storeBool false m.2 with
  | some b => (st.1.set (String.mk m.1) b, st.2)
  | none => (st.1.set (String.mk m.1) false, true)

/-- Store a JSON value into a `map[string]bool` (`none` is the nil map): `null` sets
the map to nil, an object adds its members to the map at hand (allocating it when
nil), anything else is a type error. -/
def storeBoolMap (cur : Option BoolMap) : JVal → Option BoolMap × Bool
  | JVal.null => (none, false)
  | JVal.obj ms =>
    let r := ms.foldl storeMapElem (cur.getD [], false)
    (some r.1, r.2)
  | _ => (cur, true)

/-! ## The records of the client -/

structure InventoryItem where
  ProductID : GoString
  AvailableQuantity : Int
  ReservedQuantity : Int
  TotalQuantity : Int
  WarehouseLocation : GoString
  LastUpdatedTimestamp : Int
  deriving DecidableEq, Repr

structure CartItemForInventory where
  ProductID : String
  Quantity : Int
  deriving DecidableEq, Repr

structure CheckAvailabilityRequest where
  Items : Option (List CartItemForInventory)
  deriving DecidableEq, Repr

structure CheckAvailabilityResponse where
  Availability : Option BoolMap
  AllAvailable : Bool
  deriving DecidableEq, Repr

structure ReservationResponse where
  Success : Bool
  ReservationID : String
  Message : String
  deriving DecidableEq, Repr

/-- The JSON names of the fields of `InventoryItem`, in declaration order. -/
def inventoryItemFields : List String :=
  ["productId", "availableQuantity", "reservedQuantity", "totalQuantity",
   "warehouseLocation", "lastUpdatedTimestamp"]

def checkAvailabilityResponseFields : List String := ["availability", "allAvailable"]

def reservationResponseFields : List String := ["success", "reservationId", "message"]

/-- One object member stored into an `InventoryItem`; the flag records a type error.
A key that names no field is skipped. -/
def storeInventoryItemField (st : InventoryItem × Bool) (m : List Char × JVal) :
    InventoryItem × Bool :=
  match findField inventoryItemFields m.1 with
  | none => st
  | some f =>
    if f = "productId" then
      match storeGoString st.1.ProductID m.2 with
      | some s => ({ st.1 with ProductID := s }, st.2)
      | none => (st.1, true)
    else if f = "availableQuantity" then
      match storeInt 32 st.1.AvailableQuantity m.2 with
      | some n => ({ st.1 with AvailableQuantity := n }, st.2)
      | none => (st.1, true)
    else if f = "reservedQuantity" then
      match storeInt 32 st.1.ReservedQuantity m.2 with
      | some n => ({ st.1 with ReservedQuantity := n }, st.2)
      | none => (st.1, true)
    else if f = "totalQuantity" then
      match storeInt 32 st.1.TotalQuantity m.2 with
      | some n => ({ st.1 with TotalQuantity := n }, st.2)
      | none => (st.1, true)
    else if f = "warehouseLocation" then
      match storeGoString st.1.WarehouseLocation m.2 with
      | some s => ({ st.1 with WarehouseLocation := s }, st.2)
      | none => (st.1, true)
    else
      match storeInt 64 st.1.LastUpdatedTimestamp m.2 with
      | some n => ({ st.1 with LastUpdatedTimestamp := n }, st.2)
      | none => (st.1, true)

def storeCheckAvailabilityResponseField (st : CheckAvailabilityResponse × Bool)
    (m : List Char × JVal) : CheckAvailabilityResponse × Bool :=
  match findField checkAvailabilityResponseFields m.1 with
  | none => st
  | some f =>
    if f = "availability" then
      ({ st.1 with Availability := (storeBoolMap st.1.Availability m.2).1 },
        st.2 || (storeBoolMap st.1.Availability m.2).2)
    else
      match storeBool st.1.AllAvailable m.2 with
      | some b => ({ st.1 with AllAvailable := b }, st.2)
      | none => (st.1, true)

def storeReservationResponseField (st : ReservationResponse × Bool)
    (m : List Char × JVal) : ReservationResponse × Bool :=
  match findField reservationResponseFields m.1 with
  | none => st
  | some f =>
    if f = "success" then
      match storeBool st.1.Success m.2 with
      | some b => ({ st.1 with Success := b }, st.2)
      | none => (st.1, true)
    else if f = "reservationId" then
      match storeString st.1.ReservationID m.2 with
      | some s => ({ st.1 with ReservationID := s }, st.2)
      | none => (st.1, true)
    else
      match storeString st.1.Message m.2 with
      | some s => ({ st.1 with Message := s }, st.2)
      | none => (st.1, true)

/-- Store a JSON value into a struct that starts from `zero`: `null` leaves it alone,
an object stores its members in order, and the decoder reports the type error it met,
if any, once the whole value is consumed. -/
def unmarshalStruct {α : Type} (zero : α) (store : α × Bool → List Char × JVal → α × Bool) :
    JVal → Except JsonError α
  | JVal.null => Except.ok zero
  | JVal.obj ms =>
    if (ms.foldl store (zero, false)).2 then Except.error JsonError.typeMismatch
    else Except.ok (ms.foldl store (zero, false)).1
  | _ => Except.error JsonError.typeMismatch

/-- The call `json.NewDecoder(body).Decode(&v)` for a zero `v` of a struct type. -/
def decodeStruct {α : Type} (zero : α) (store : α × Bool → List Char × JVal → α × Bool)
    (body : String) : Except JsonError α :=
  match readValue body.data with
  | none => Except.error JsonError.malformed
  | some (v, _) => unmarshalStruct zero store v

def decodeInventoryItem (body : String) : Except JsonError InventoryItem :=
  decodeStruct ⟨[], 0, 0, 0, [], 0⟩ storeInventoryItemField body

def decodeCheckAvailabilityResponse (body : String) :
    Except JsonError CheckAvailabilityResponse :=
  decodeStruct ⟨none, false⟩ storeCheckAvailabilityResponseField body

def decodeReservationResponse (body : String) : Except JsonError ReservationResponse :=
  decodeStruct ⟨false, "", ""⟩ storeReservationResponseField body

/-! ## Encoding (`json.Marshal`) -/

/-- One character of a string as `appendString` writes it with HTML escaping on (the
default of `Marshal`, Go 1.22 and later): quote, backslash and the five short control
escapes, `\u00XX` for the other control characters and for `<`, `>`, `&`, and the two
line separators U+2028 and U+2029 as `\u` escapes. -/
def escapeChar (c : Char) : List Char :=
  if c = '"' then ['\\', '"']
  else if c = '\\' then ['\\', '\\']
  else if c = Char.ofNat 8 then ['\\', 'b']
  else if c = Char.ofNat 12 then ['\\', 'f']
  else if c = '\n' then ['\\', 'n']
  else if c = '\r' then ['\\', 'r']
  else if c = '\t' then ['\\', 't']
  else if c.toNat < 32 ∨ c = '<' ∨ c = '>' ∨ c = '&' then
    ['\\', 'u', '0', '0', Nat.digitChar (c.toNat / 16), Nat.digitChar (c.toNat % 16)]
  else if c = Char.ofNat 0x2028 then ['\\', 'u', '2', '0', '2', '8']
  else if c = Char.ofNat 0x2029 then ['\\', 'u', '2', '0', '2', '9']
  else [c]

/-- The body of a string literal: every character escaped as needed. -/
def escapeString : List Char → List Char
  | [] => []
  | c :: cs => escapeChar c ++ escapeString cs

def marshalString (s : String) : List Char :=
  '"' :: (escapeString s.data ++ ['"'])

/-- The body of a string literal for a Go string given as bytes, as `appendString`
writes it: rune by rune, a byte that `utf8.DecodeRuneInString` refuses written as the
escape `\ufffd`.  `skip` counts the bytes still to pass of the rune just written. -/
def escapeFrom : Nat → GoString → List Char
  | _, [] => []
  | skip + 1, _ :: rest => escapeFrom skip rest
  | 0, b :: rest =>
    match decodeRune (b :: rest) with
    | none => ['\\', 'u', 'f', 'f', 'f', 'd'] ++ escapeFrom 0 rest
    | some (c, width) => escapeChar c ++ escapeFrom (width - 1) rest

def marshalGoString (s : GoString) : List Char :=
  '"' :: (escapeFrom 0 s ++ ['"'])

def marshalCartItem (it : CartItemForInventory) : List Char :=
  "\x7b\"productId\":".data ++ marshalString it.ProductID ++ ",\"quantity\":".data
    ++ fmtInt it.Quantity ++ ['}']

/-- The elements of a non-nil slice, separated by commas. -/
def marshalCartItemsTail : List CartItemForInventory → List Char
  | [] => []
  | it :: rest => ',' :: (marshalCartItem it ++ marshalCartItemsTail rest)

/-- A slice of cart lines: `null` for the nil slice, an array otherwise. -/
def marshalCartItems : Option (List CartItemForInventory) → List Char
  | none => "null".data
  | some [] => "[]".data
  | some (it :: rest) => '[' :: (marshalCartItem it ++ marshalCartItemsTail rest ++ [']'])

def marshalCheckAvailabilityRequest (r : CheckAvailabilityRequest) : List Char :=
  "\x7b\"items\":".data ++ marshalCartItems r.Items ++ ['}']

def marshalInventoryItem (v : InventoryItem) : List Char :=
  "\x7b\"productId\":".data ++ marshalGoString v.ProductID
    ++ ",\"availableQuantity\":".data ++ fmtInt v.AvailableQuantity
    ++ ",\"reservedQuantity\":".data ++ fmtInt v.ReservedQuantity
    ++ ",\"totalQuantity\":".data ++ fmtInt v.TotalQuantity
    ++ ",\"warehouseLocation\":".data ++ marshalGoString v.WarehouseLocation
    ++ ",\"lastUpdatedTimestamp\":".data ++ fmtInt v.LastUpdatedTimestamp ++ ['}']

/-- The function `json.Marshal` at the types this client passes to it; none of them
has a value that cannot be encoded, so the error result is never used. -/
def Marshal (text : List Char) : Except GoError String := Except.ok (String.mk text)

/-! ## Requests, responses and the world outside the client (`net/http`) -/

structure Request where
  Method : String
  URL : String
  /-- The request body; `none` for a request made with a nil body. -/
  Body : Option String
  /-- The header `Content-Type`, when set. -/
  ContentType : Option String
  deriving DecidableEq, Repr

structure Response where
  StatusCode : Int
  /-- The whole text that reading `resp.Body` yields. -/
  Body : String
  deriving DecidableEq, Repr

/-- A `context.Context` as the client uses it: nil, or a context. -/
inductive Context where
  | nilContext
  | live
  deriving DecidableEq, Repr

/-- What one round trip of the transport gives back: the response, and the value of
its `Location` header (the empty string when it has none). -/
structure Reply where
  resp : Response
  Location : String
  deriving DecidableEq, Repr

/-- What the client does not own: `url.Parse` as `http.NewRequestWithContext` calls it
(`some msg` is its error), the resolution of a `Location` against the URL of the
request it answers (`req.URL.Parse(loc)`), and one round trip of the transport (an
error carries the message of the cause: connection, DNS, timeout or cancellation). -/
structure Env where
  parseURL : String → Option String
  resolveURL : String → String → Except String String
  RoundTrip : Request → Except String Reply

/-- The function `redirectBehavior` of `net/http`: for a status that the client follows,
the method of the next request and whether the body is sent again.  A request of this
client has no body or a body made from a byte buffer, which can be sent again, so 307
and 308 are always followed. -/
def redirectBehavior (reqMethod : String) (status : Int) : Option (String × Bool) :=
  if status = 301 ∨ status = 302 ∨ status = 303 then
    some (if reqMethod ≠ "GET" ∧ reqMethod ≠ "HEAD" then "GET" else reqMethod, false)
  else if status = 307 ∨ status = 308 then some (reqMethod, true)
  else none

/-- The loop of `Client.do` with the default redirect policy, for the first request
`ireq`: send `req`; return the error of a failed round trip; return a response that is
not a redirect, or has no `Location`; otherwise build the next request (method by
`redirectBehavior`, the body of the first request while no hop has dropped it, the
headers of the first request) and go on, unless ten requests have been sent.  `fuel` is
the number of requests that may still be sent.  The result is what `Do` returns and the
requests that went over the transport, in order. -/
def clientLoop (env : Env) (ireq : Request) :
    Nat → Request → Bool → Except String Response × List Request
  | 0, _, _ => (Except.error "stopped after 10 redirects", [])
  | fuel + 1, req, includeBody =>
    match env.RoundTrip req with
    | Except.error cause => (Except.error cause, [req])
    | Except.ok reply =>
      match redirectBehavior req.Method reply.resp.StatusCode with
      | none => (Except.ok reply.resp, [req])
      | some (method, onHop) =>
        if reply.Location = "" then (Except.ok reply.resp, [req])
        else
          match env.resolveURL req.URL reply.Location with
          | Except.error msg => (Except.error msg, [req])
          | Except.ok u =>
            ((clientLoop env ireq fuel
                ⟨method, u, if includeBody && onHop then ireq.Body else none,
                  ireq.ContentType⟩ (includeBody && onHop)).1,
              req :: (clientLoop env ireq fuel
                ⟨method, u, if includeBody && onHop then ireq.Body else none,
                  ireq.ContentType⟩ (includeBody && onHop)).2)

/-- The method `Do` of the client that `NewInventoryServiceClient` builds: no
`CheckRedirect` is set, so up to ten requests are sent for one call. -/
def Env.Do (env : Env) (req : Request) : Except String Response :=
  (clientLoop env req 10 req true).1

/-- The requests that `Do` sends over the transport for `req`, in order. -/
def Env.trips (env : Env) (req : Request) : List Request :=
  (clientLoop env req 10 req true).2

/-- The function `http.NewRequestWithContext` for the valid methods `GET` and `POST`:
it refuses a nil context and a URL that does not parse. -/
def NewRequestWithContext (env : Env) (ctx : Context) (method url : String)
    (body : Option String) : Except GoError Request :=
  match ctx with
  | Context.nilContext => Except.error (GoError.external "net/http: nil Context")
  | Context.live =>
    match env.parseURL url with
    | some msg => Except.error (GoError.external msg)
    | none => Except.ok ⟨method, url, body, none⟩

/-- The value of a span attribute. -/
inductive AttrValue where
  | str (s : String)
  | int (n : Int)
  deriving DecidableEq, Repr

/-- What one call of an operation does: the pair it returns (`value`, `err`), the
attributes it sets on the span of the context, the requests it hands to
`httpClient.Do`, in order, and the requests that went over the transport for them. -/
structure Outcome (α : Type) where
  value : α
  err : Option GoError
  attrs : List (String × AttrValue)
  sent : List Request
  roundTrips : List Request

/-! ## The client -/

/-- The fields of `http.Client` the constructor sets: the timeout, a `time.Duration`
in nanoseconds, and whether the transport is the instrumented default transport. -/
structure HTTPClient where
  Timeout : Int
  Instrumented : Bool
  deriving DecidableEq, Repr

structure InventoryServiceClient where
  httpClient : HTTPClient
  baseURL : String
  deriving DecidableEq, Repr

/-- The constant `time.Second`, in nanoseconds. -/
def Second : Int := 1000000000

/-- The process environment: the value of a variable that is set, which may be the
empty string, and `none` for a variable that is not set. -/
abbrev Environ := String → Option String

/-- The function `os.Getenv`: the value, or the empty string when the variable is not
present. -/
def Getenv (environ : Environ) (key : String) : String :=
  (environ key).getD ""

def NewInventoryServiceClient (environ : Environ) : InventoryServiceClient :=
  let baseURL := Getenv environ "INVENTORY_ADDR"
  let baseURL := if baseURL = "" then "http://inventory:8080" else baseURL
  { httpClient := { Timeout := 30 * Second, Instrumented := true }, baseURL := baseURL }

def GetInventory (c : InventoryServiceClient) (env : Env) (ctx : Context)
    (productID : String) : Outcome (Option InventoryItem) :=
  let attrs := [("inventory.product_id", AttrValue.str productID)]
  let url := c.baseURL ++ "/api/v1/inventory/" ++ productID
  match NewRequestWithContext env ctx "GET" url none with
  | Except.error err => ⟨none, some (GoError.wrapf "创建请求失败: " err), attrs, [], []⟩
  | Except.ok req =>
    match env.Do req with
    | Except.error cause =>
      ⟨none, some (GoError.wrapf "调用库存服务失败: " (GoError.external cause)),
        attrs ++ [("error", AttrValue.str cause)], [req], env.trips req⟩
    | Except.ok resp =>
      if resp.StatusCode ≠ 200 then
        ⟨none, some (GoError.errorf
          ("获取库存信息失败，状态码: " ++ String.mk (fmtInt resp.StatusCode))), attrs, [req], env.trips req⟩
      else
        match decodeInventoryItem resp.Body with
        | Except.error e =>
          ⟨none, some (GoError.wrapf "解析响应失败: " (GoError.json e)), attrs, [req], env.trips req⟩
        | Except.ok inventory => ⟨some inventory, none, attrs, [req], env.trips req⟩

def CheckAvailability (c : InventoryServiceClient) (env : Env) (ctx : Context)
    (items : Option (List CartItemForInventory)) : Outcome (Option BoolMap) :=
  let attrs := [("inventory.items_count", AttrValue.int ((items.getD []).length : Nat))]
  let url := c.baseURL ++ "/api/v1/inventory/check-availability"
  let request : CheckAvailabilityRequest := { Items := items }
  match Marshal (marshalCheckAvailabilityRequest request) with
  | Except.error err => ⟨none, some (GoError.wrapf "序列化请求失败: " err), attrs, [], []⟩
  | Except.ok jsonData =>
    match NewRequestWithContext env ctx "POST" url (some jsonData) with
    | Except.error err => ⟨none, some (GoError.wrapf "创建请求失败: " err), attrs, [], []⟩
    | Except.ok req0 =>
      let req : Request := { req0 with ContentType := some "application/json" }
      match env.Do req with
      | Except.error cause =>
        ⟨none, some (GoError.wrapf "检查商品可用性失败: " (GoError.external cause)),
          attrs ++ [("error", AttrValue.str cause)], [req], env.trips req⟩
      | Except.ok resp =>
        if resp.StatusCode ≠ 200 then
          ⟨none, some (GoError.errorf
            ("检查商品可用性失败，状态码: " ++ String.mk (fmtInt resp.StatusCode))), attrs, [req], env.trips req⟩
        else
          match decodeCheckAvailabilityResponse resp.Body with
          | Except.error e =>
            ⟨none, some (GoError.wrapf "解析响应失败: " (GoError.json e)), attrs, [req], env.trips req⟩
          | Except.ok response => ⟨response.Availability, none, attrs, [req], env.trips req⟩

def ReserveInventory (c : InventoryServiceClient) (env : Env) (ctx : Context)
    (items : Option (List CartItemForInventory)) (reservationID : String) : Outcome Bool :=
  let attrs := [("inventory.reservation_id", AttrValue.str reservationID),
    ("inventory.items_count", AttrValue.int ((items.getD []).length : Nat))]
  let url := c.baseURL ++ "/api/v1/inventory/reserve?reservationId=" ++ reservationID
  match Marshal (marshalCartItems items) with
  | Except.error err => ⟨false, some (GoError.wrapf "序列化请求失败: " err), attrs, [], []⟩
  | Except.ok jsonData =>
    match NewRequestWithContext env ctx "POST" url (some jsonData) with
    | Except.error err => ⟨false, some (GoError.wrapf "创建请求失败: " err), attrs, [], []⟩
    | Except.ok req0 =>
      let req : Request := { req0 with ContentType := some "application/json" }
      match env.Do req with
      | Except.error cause =>
        ⟨false, some (GoError.wrapf "预留库存失败: " (GoError.external cause)),
          attrs ++ [("error", AttrValue.str cause)], [req], env.trips req⟩
      | Except.ok resp =>
        if resp.StatusCode ≠ 200 then
          ⟨false, some (GoError.errorf
            ("预留库存失败，状态码: " ++ String.mk (fmtInt resp.StatusCode))), attrs, [req], env.trips req⟩
        else
          match decodeReservationResponse resp.Body with
          | Except.error e =>
            ⟨false, some (GoError.wrapf "解析响应失败: " (GoError.json e)), attrs, [req], env.trips req⟩
          | Except.ok response => ⟨response.Success, none, attrs, [req], env.trips req⟩

def ReleaseInventory (c : InventoryServiceClient) (env : Env) (ctx : Context)
    (reservationID : String) : Outcome Bool :=
  let attrs := [("inventory.reservation_id", AttrValue.str reservationID)]
  let url := c.baseURL ++ "/api/v1/inventory/release?reservationId=" ++ reservationID
  match NewRequestWithContext env ctx "POST" url none with
  | Except.error err => ⟨false, some (GoError.wrapf "创建请求失败: " err), attrs, [], []⟩
  | Except.ok req =>
    match env.Do req with
    | Except.error cause =>
      ⟨false, some (GoError.wrapf "释放库存失败: " (GoError.external cause)),
        attrs ++ [("error", AttrValue.str cause)], [req], env.trips req⟩
    | Except.ok resp =>
      if resp.StatusCode ≠ 200 then
        ⟨false, some (GoError.errorf
          ("释放库存失败，状态码: " ++ String.mk (fmtInt resp.StatusCode))), attrs, [req], env.trips req⟩
      else
        match decodeReservationResponse resp.Body with
        | Except.error e =>
          ⟨false, some (GoError.wrapf "解析响应失败: " (GoError.json e)), attrs, [req], env.trips req⟩
        | Except.ok response => ⟨response.Success, none, attrs, [req], env.trips req⟩

/-! ## Reading a request as the service does (`net/url`, `json.Valid`) -/

/-- The text after a value inside an object starts with a comma or the closing
brace. -/
def endsValue (tail : List Char) : Prop :=
  ∃ t, tail = ',' :: t ∨ tail = '}' :: t

/-! ## A stub service for the scenarios -/

/-- A service that accepts every URL and answers every request with `resp`. -/
def stubEnv (resp : Response) : Env :=
  { parseURL := fun _ => none, resolveURL := fun _ loc => Except.ok loc,
    RoundTrip := fun _ => Except.ok ⟨resp, ""⟩ }

/-- A service that has moved: the request for the URL `target` is answered with `resp`,
every other request with `302 Found` and the header `Location: target`. -/
def movedEnv (target : String) (resp : Response) : Env :=
  { parseURL := fun _ => none, resolveURL := fun _ loc => Except.ok loc,
    RoundTrip := fun req =>
      if req.URL = target then Except.ok ⟨resp, ""⟩ else Except.ok ⟨⟨302, ""⟩, target⟩ }

/-- The client built in an environment that sets no variable. -/
def defaultClient : InventoryServiceClient := NewInventoryServiceClient (fun _ => none)

end Inventory

namespace Inventory

/-! ## The outcome of an operation, case by case -/

theorem GetInventory_of_newRequest_error {c : InventoryServiceClient} {env : Env} {ctx : Context}
    {productID : String} {e : GoError}
    (hreq : NewRequestWithContext env ctx "GET"
      (c.baseURL ++ "/api/v1/inventory/" ++ productID)
      none = Except.error e) :
    GetInventory c env ctx productID =
      ⟨none, some (GoError.wrapf "创建请求失败: " e),
        [("inventory.product_id", AttrValue.str productID)], [], []⟩ := by
  simp only [GetInventory, Marshal, hreq]

theorem GetInventory_of_transport_error {c : InventoryServiceClient} {env : Env} {ctx : Context}
    {productID : String} {req : Request} {cause : String}
    (hreq : NewRequestWithContext env ctx "GET"
      (c.baseURL ++ "/api/v1/inventory/" ++ productID)
      none = Except.ok req)
    (hdo : env.Do req = Except.error cause) :
    GetInventory c env ctx productID =
      ⟨none, some (GoError.wrapf "调用库存服务失败: " (GoError.external cause)),
        [("inventory.product_id", AttrValue.str productID)] ++ [("error", AttrValue.str cause)],
        [req], env.trips req⟩ := by
  simp only [GetInventory, Marshal, hreq, hdo]

theorem GetInventory_of_status {c : InventoryServiceClient} {env : Env} {ctx : Context}
    {productID : String} {req : Request} {resp : Response}
    (hreq : NewRequestWithContext env ctx "GET"
      (c.baseURL ++ "/api/v1/inventory/" ++ productID)
      none = Except.ok req)
    (hdo : env.Do req = Except.ok resp)
    (hs : resp.StatusCode ≠ 200) :
    GetInventory c env ctx productID =
      ⟨none, some (GoError.errorf
          ("获取库存信息失败，状态码: " ++ String.mk (fmtInt resp.StatusCode))),
        [("inventory.product_id", AttrValue.str productID)],
        [req], env.trips req⟩ := by
  simp only [GetInventory, Marshal, hreq, hdo, hs, ne_eq, not_false_eq_true, ite_true]

theorem GetInventory_of_decode_error {c : InventoryServiceClient} {env : Env} {ctx : Context}
    {productID : String} {req : Request} {resp : Response}
    {e : JsonError}
    (hreq : NewRequestWithContext env ctx "GET"
      (c.baseURL ++ "/api/v1/inventory/" ++ productID)
      none = Except.ok req)
    (hdo : env.Do req = Except.ok resp)
    (hs : resp.StatusCode = 200) (hdec : decodeInventoryItem resp.Body = Except.error e) :
    GetInventory c env ctx productID =
      ⟨none, some (GoError.wrapf "解析响应失败: " (GoError.json e)),
        [("inventory.product_id", AttrValue.str productID)],
        [req], env.trips req⟩ := by
  simp only [GetInventory, Marshal, hreq, hdo, hs, hdec, ne_eq, not_true_eq_false, ite_false]

theorem GetInventory_of_decoded {c : InventoryServiceClient} {env : Env} {ctx : Context}
    {productID : String} {req : Request} {resp : Response}
    {r : InventoryItem}
    (hreq : NewRequestWithContext env ctx "GET"
      (c.baseURL ++ "/api/v1/inventory/" ++ productID)
      none = Except.ok req)
    (hdo : env.Do req = Except.ok resp)
    (hs : resp.StatusCode = 200) (hdec : decodeInventoryItem resp.Body = Except.ok r) :
    GetInventory c env ctx productID =
      ⟨some r, none,
        [("inventory.product_id", AttrValue.str productID)],
        [req], env.trips req⟩ := by
  simp only [GetInventory, Marshal, hreq, hdo, hs, hdec, ne_eq, not_true_eq_false, ite_false]

theorem CheckAvailability_of_newRequest_error {c : InventoryServiceClient} {env : Env} {ctx : Context}
    {items : Option (List CartItemForInventory)} {e : GoError}
    (hreq : NewRequestWithContext env ctx "POST"
      (c.baseURL ++ "/api/v1/inventory/check-availability")
      (some (String.mk (marshalCheckAvailabilityRequest { Items := items }))) = Except.error e) :
    CheckAvailability c env ctx items =
      ⟨none, some (GoError.wrapf "创建请求失败: " e),
        [("inventory.items_count", AttrValue.int ((items.getD []).length : Nat))], [], []⟩ := by
  simp only [CheckAvailability, Marshal, hreq]

theorem CheckAvailability_of_transport_error {c : InventoryServiceClient} {env : Env} {ctx : Context}
    {items : Option (List CartItemForInventory)} {req : Request} {cause : String}
    (hreq : NewRequestWithContext env ctx "POST"
      (c.baseURL ++ "/api/v1/inventory/check-availability")
      (some (String.mk (marshalCheckAvailabilityRequest { Items := items }))) = Except.ok req)
    (hdo : env.Do { req with ContentType := some "application/json" } = Except.error cause) :
    CheckAvailability c env ctx items =
      ⟨none, some (GoError.wrapf "检查商品可用性失败: " (GoError.external cause)),
        [("inventory.items_count", AttrValue.int ((items.getD []).length : Nat))] ++ [("error", AttrValue.str cause)],
        [{ req with ContentType := some "application/json" }], env.trips { req with ContentType := some "application/json" }⟩ := by
  simp only [CheckAvailability, Marshal, hreq, hdo]

theorem CheckAvailability_of_status {c : InventoryServiceClient} {env : Env} {ctx : Context}
    {items : Option (List CartItemForInventory)} {req : Request} {resp : Response}
    (hreq : NewRequestWithContext env ctx "POST"
      (c.baseURL ++ "/api/v1/inventory/check-availability")
      (some (String.mk (marshalCheckAvailabilityRequest { Items := items }))) = Except.ok req)
    (hdo : env.Do { req with ContentType := some "application/json" } = Except.ok resp)
    (hs : resp.StatusCode ≠ 200) :
    CheckAvailability c env ctx items =
      ⟨none, some (GoError.errorf
          ("检查商品可用性失败，状态码: " ++ String.mk (fmtInt resp.StatusCode))),
        [("inventory.items_count", AttrValue.int ((items.getD []).length : Nat))],
        [{ req with ContentType := some "application/json" }], env.trips { req with ContentType := some "application/json" }⟩ := by
  simp only [CheckAvailability, Marshal, hreq, hdo, hs, ne_eq, not_false_eq_true, ite_true]

theorem CheckAvailability_of_decode_error {c : InventoryServiceClient} {env : Env} {ctx : Context}
    {items : Option (List CartItemForInventory)} {req : Request} {resp : Response}
    {e : JsonError}
    (hreq : NewRequestWithContext env ctx "POST"
      (c.baseURL ++ "/api/v1/inventory/check-availability")
      (some (String.mk (marshalCheckAvailabilityRequest { Items := items }))) = Except.ok req)
    (hdo : env.Do { req with ContentType := some "application/json" } = Except.ok resp)
    (hs : resp.StatusCode = 200) (hdec : decodeCheckAvailabilityResponse resp.Body = Except.error e) :
    CheckAvailability c env ctx items =
      ⟨none, some (GoError.wrapf "解析响应失败: " (GoError.json e)),
        [("inventory.items_count", AttrValue.int ((items.getD []).length : Nat))],
        [{ req with ContentType := some "application/json" }], env.trips { req with ContentType := some "application/json" }⟩ := by
  simp only [CheckAvailability, Marshal, hreq, hdo, hs, hdec, ne_eq, not_true_eq_false, ite_false]

theorem CheckAvailability_of_decoded {c : InventoryServiceClient} {env : Env} {ctx : Context}
    {items : Option (List CartItemForInventory)} {req : Request} {resp : Response}
    {r : CheckAvailabilityResponse}
    (hreq : NewRequestWithContext env ctx "POST"
      (c.baseURL ++ "/api/v1/inventory/check-availability")
      (some (String.mk (marshalCheckAvailabilityRequest { Items := items }))) = Except.ok req)
    (hdo : env.Do { req with ContentType := some "application/json" } = Except.ok resp)
    (hs : resp.StatusCode = 200) (hdec : decodeCheckAvailabilityResponse resp.Body = Except.ok r) :
    CheckAvailability c env ctx items =
      ⟨r.Availability, none,
        [("inventory.items_count", AttrValue.int ((items.getD []).length : Nat))],
        [{ req with ContentType := some "application/json" }], env.trips { req with ContentType := some "application/json" }⟩ := by
  simp only [CheckAvailability, Marshal, hreq, hdo, hs, hdec, ne_eq, not_true_eq_false, ite_false]

theorem ReserveInventory_of_newRequest_error {c : InventoryServiceClient} {env : Env} {ctx : Context}
    {items : Option (List CartItemForInventory)} {reservationID : String} {e : GoError}
    (hreq : NewRequestWithContext env ctx "POST"
      (c.baseURL ++ "/api/v1/inventory/reserve?reservationId=" ++ reservationID)
      (some (String.mk (marshalCartItems items))) = Except.error e) :
    ReserveInventory c env ctx items reservationID =
      ⟨false, some (GoError.wrapf "创建请求失败: " e),
        [("inventory.reservation_id", AttrValue.str reservationID),
          ("inventory.items_count", AttrValue.int ((items.getD []).length : Nat))], [], []⟩ := by
  simp only [ReserveInventory, Marshal, hreq]

theorem ReserveInventory_of_transport_error {c : InventoryServiceClient} {env : Env} {ctx : Context}
    {items : Option (List CartItemForInventory)} {reservationID : String} {req : Request} {cause : String}
    (hreq : NewRequestWithContext env ctx "POST"
      (c.baseURL ++ "/api/v1/inventory/reserve?reservationId=" ++ reservationID)
      (some (String.mk (marshalCartItems items))) = Except.ok req)
    (hdo : env.Do { req with ContentType := some "application/json" } = Except.error cause) :
    ReserveInventory c env ctx items reservationID =
      ⟨false, some (GoError.wrapf "预留库存失败: " (GoError.external cause)),
        [("inventory.reservation_id", AttrValue.str reservationID),
          ("inventory.items_count", AttrValue.int ((items.getD []).length : Nat))] ++ [("error", AttrValue.str cause)],
        [{ req with ContentType := some "application/json" }], env.trips { req with ContentType := some "application/json" }⟩ := by
  simp only [ReserveInventory, Marshal, hreq, hdo]

theorem ReserveInventory_of_status {c : InventoryServiceClient} {env : Env} {ctx : Context}
    {items : Option (List CartItemForInventory)} {reservationID : String} {req : Request} {resp : Response}
    (hreq : NewRequestWithContext env ctx "POST"
      (c.baseURL ++ "/api/v1/inventory/reserve?reservationId=" ++ reservationID)
      (some (String.mk (marshalCartItems items))) = Except.ok req)
    (hdo : env.Do { req with ContentType := some "application/json" } = Except.ok resp)
    (hs : resp.StatusCode ≠ 200) :
    ReserveInventory c env ctx items reservationID =
      ⟨false, some (GoError.errorf
          ("预留库存失败，状态码: " ++ String.mk (fmtInt resp.StatusCode))),
        [("inventory.reservation_id", AttrValue.str reservationID),
          ("inventory.items_count", AttrValue.int ((items.getD []).length : Nat))],
        [{ req with ContentType := some "application/json" }], env.trips { req with ContentType := some "application/json" }⟩ := by
  simp only [ReserveInventory, Marshal, hreq, hdo, hs, ne_eq, not_false_eq_true, ite_true]

theorem ReserveInventory_of_decode_error {c : InventoryServiceClient} {env : Env} {ctx : Context}
    {items : Option (List CartItemForInventory)} {reservationID : String} {req : Request} {resp : Response}
    {e : JsonError}
    (hreq : NewRequestWithContext env ctx "POST"
      (c.baseURL ++ "/api/v1/inventory/reserve?reservationId=" ++ reservationID)
      (some (String.mk (marshalCartItems items))) = Except.ok req)
    (hdo : env.Do { req with ContentType := some "application/json" } = Except.ok resp)
    (hs : resp.StatusCode = 200) (hdec : decodeReservationResponse resp.Body = Except.error e) :
    ReserveInventory c env ctx items reservationID =
      ⟨false, some (GoError.wrapf "解析响应失败: " (GoError.json e)),
        [("inventory.reservation_id", AttrValue.str reservationID),
          ("inventory.items_count", AttrValue.int ((items.getD []).length : Nat))],
        [{ req with ContentType := some "application/json" }], env.trips { req with ContentType := some "application/json" }⟩ := by
  simp only [ReserveInventory, Marshal, hreq, hdo, hs, hdec, ne_eq, not_true_eq_false, ite_false]

theorem ReserveInventory_of_decoded {c : InventoryServiceClient} {env : Env} {ctx : Context}
    {items : Option (List CartItemForInventory)} {reservationID : String} {req : Request} {resp : Response}
    {r : ReservationResponse}
    (hreq : NewRequestWithContext env ctx "POST"
      (c.baseURL ++ "/api/v1/inventory/reserve?reservationId=" ++ reservationID)
      (some (String.mk (marshalCartItems items))) = Except.ok req)
    (hdo : env.Do { req with ContentType := some "application/json" } = Except.ok resp)
    (hs : resp.StatusCode = 200) (hdec : decodeReservationResponse resp.Body = Except.ok r) :
    ReserveInventory c env ctx items reservationID =
      ⟨r.Success, none,
        [("inventory.reservation_id", AttrValue.str reservationID),
          ("inventory.items_count", AttrValue.int ((items.getD []).length : Nat))],
        [{ req with ContentType := some "application/json" }], env.trips { req with ContentType := some "application/json" }⟩ := by
  simp only [ReserveInventory, Marshal, hreq, hdo, hs, hdec, ne_eq, not_true_eq_false, ite_false]

theorem ReleaseInventory_of_newRequest_error {c : InventoryServiceClient} {env : Env} {ctx : Context}
    {reservationID : String} {e : GoError}
    (hreq : NewRequestWithContext env ctx "POST"
      (c.baseURL ++ "/api/v1/inventory/release?reservationId=" ++ reservationID)
      none = Except.error e) :
    ReleaseInventory c env ctx reservationID =
      ⟨false, some (GoError.wrapf "创建请求失败: " e),
        [("inventory.reservation_id", AttrValue.str reservationID)], [], []⟩ := by
  simp only [ReleaseInventory, Marshal, hreq]

theorem ReleaseInventory_of_transport_error {c : InventoryServiceClient} {env : Env} {ctx : Context}
    {reservationID : String} {req : Request} {cause : String}
    (hreq : NewRequestWithContext env ctx "POST"
      (c.baseURL ++ "/api/v1/inventory/release?reservationId=" ++ reservationID)
      none = Except.ok req)
    (hdo : env.Do req = Except.error cause) :
    ReleaseInventory c env ctx reservationID =
      ⟨false, some (GoError.wrapf "释放库存失败: " (GoError.external cause)),
        [("inventory.reservation_id", AttrValue.str reservationID)] ++ [("error", AttrValue.str cause)],
        [req], env.trips req⟩ := by
  simp only [ReleaseInventory, Marshal, hreq, hdo]

theorem ReleaseInventory_of_status {c : InventoryServiceClient} {env : Env} {ctx : Context}
    {reservationID : String} {req : Request} {resp : Response}
    (hreq : NewRequestWithContext env ctx "POST"
      (c.baseURL ++ "/api/v1/inventory/release?reservationId=" ++ reservationID)
      none = Except.ok req)
    (hdo : env.Do req = Except.ok resp)
    (hs : resp.StatusCode ≠ 200) :
    ReleaseInventory c env ctx reservationID =
      ⟨false, some (GoError.errorf
          ("释放库存失败，状态码: " ++ String.mk (fmtInt resp.StatusCode))),
        [("inventory.reservation_id", AttrValue.str reservationID)],
        [req], env.trips req⟩ := by
  simp only [ReleaseInventory, Marshal, hreq, hdo, hs, ne_eq, not_false_eq_true, ite_true]

theorem ReleaseInventory_of_decode_error {c : InventoryServiceClient} {env : Env} {ctx : Context}
    {reservationID : String} {req : Request} {resp : Response}
    {e : JsonError}
    (hreq : NewRequestWithContext env ctx "POST"
      (c.baseURL ++ "/api/v1/inventory/release?reservationId=" ++ reservationID)
      none = Except.ok req)
    (hdo : env.Do req = Except.ok resp)
    (hs : resp.StatusCode = 200) (hdec : decodeReservationResponse resp.Body = Except.error e) :
    ReleaseInventory c env ctx reservationID =
      ⟨false, some (GoError.wrapf "解析响应失败: " (GoError.json e)),
        [("inventory.reservation_id", AttrValue.str reservationID)],
        [req], env.trips req⟩ := by
  simp only [ReleaseInventory, Marshal, hreq, hdo, hs, hdec, ne_eq, not_true_eq_false, ite_false]

theorem ReleaseInventory_of_decoded {c : InventoryServiceClient} {env : Env} {ctx : Context}
    {reservationID : String} {req : Request} {resp : Response}
    {r : ReservationResponse}
    (hreq : NewRequestWithContext env ctx "POST"
      (c.baseURL ++ "/api/v1/inventory/release?reservationId=" ++ reservationID)
      none = Except.ok req)
    (hdo : env.Do req = Except.ok resp)
    (hs : resp.StatusCode = 200) (hdec : decodeReservationResponse resp.Body = Except.ok r) :
    ReleaseInventory c env ctx reservationID =
      ⟨r.Success, none,
        [("inventory.reservation_id", AttrValue.str reservationID)],
        [req], env.trips req⟩ := by
  simp only [ReleaseInventory, Marshal, hreq, hdo, hs, hdec, ne_eq, not_true_eq_false, ite_false]

theorem GetInventory_sent_of_newRequest {c : InventoryServiceClient} {env : Env} {ctx : Context}
    {productID : String} {req : Request}
    (hreq : NewRequestWithContext env ctx "GET"
      (c.baseURL ++ "/api/v1/inventory/" ++ productID)
      none = Except.ok req) :
    (GetInventory c env ctx productID).sent = [req] := by
  cases hdo : env.Do req with
  | error cause => rw [GetInventory_of_transport_error hreq hdo]
  | ok resp =>
    by_cases hs : resp.StatusCode = 200
    · cases hdec : decodeInventoryItem resp.Body with
      | error e => rw [GetInventory_of_decode_error hreq hdo hs hdec]
      | ok r => rw [GetInventory_of_decoded hreq hdo hs hdec]
    · rw [GetInventory_of_status hreq hdo hs]

theorem GetInventory_newRequest_of_sent {c : InventoryServiceClient} {env : Env} {ctx : Context}
    {productID : String} {sentReq : Request}
    (hsent : (GetInventory c env ctx productID).sent = [sentReq]) :
    ∃ req, NewRequestWithContext env ctx "GET"
      (c.baseURL ++ "/api/v1/inventory/" ++ productID)
      none = Except.ok req ∧ sentReq = req := by
  cases hreq : NewRequestWithContext env ctx "GET"
      (c.baseURL ++ "/api/v1/inventory/" ++ productID)
      none with
  | error e =>
    rw [GetInventory_of_newRequest_error hreq] at hsent
    cases hsent
  | ok req =>
    rw [GetInventory_sent_of_newRequest hreq] at hsent
    exact ⟨req, rfl, (List.cons.inj hsent).1.symm⟩

theorem GetInventory_sent_length_le_one (c : InventoryServiceClient) (env : Env) (ctx : Context)
    (productID : String) :
    (GetInventory c env ctx productID).sent.length ≤ 1 := by
  cases hreq : NewRequestWithContext env ctx "GET"
      (c.baseURL ++ "/api/v1/inventory/" ++ productID)
      none with
  | error e => rw [GetInventory_of_newRequest_error hreq]; simp
  | ok req => rw [GetInventory_sent_of_newRequest hreq]; simp

theorem CheckAvailability_sent_of_newRequest {c : InventoryServiceClient} {env : Env} {ctx : Context}
    {items : Option (List CartItemForInventory)} {req : Request}
    (hreq : NewRequestWithContext env ctx "POST"
      (c.baseURL ++ "/api/v1/inventory/check-availability")
      (some (String.mk (marshalCheckAvailabilityRequest { Items := items }))) = Except.ok req) :
    (CheckAvailability c env ctx items).sent = [{ req with ContentType := some "application/json" }] := by
  cases hdo : env.Do { req with ContentType := some "application/json" } with
  | error cause => rw [CheckAvailability_of_transport_error hreq hdo]
  | ok resp =>
    by_cases hs : resp.StatusCode = 200
    · cases hdec : decodeCheckAvailabilityResponse resp.Body with
      | error e => rw [CheckAvailability_of_decode_error hreq hdo hs hdec]
      | ok r => rw [CheckAvailability_of_decoded hreq hdo hs hdec]
    · rw [CheckAvailability_of_status hreq hdo hs]

theorem CheckAvailability_sent_length_le_one (c : InventoryServiceClient) (env : Env) (ctx : Context)
    (items : Option (List CartItemForInventory)) :
    (CheckAvailability c env ctx items).sent.length ≤ 1 := by
  cases hreq : NewRequestWithContext env ctx "POST"
      (c.baseURL ++ "/api/v1/inventory/check-availability")
      (some (String.mk (marshalCheckAvailabilityRequest { Items := items }))) with
  | error e => rw [CheckAvailability_of_newRequest_error hreq]; simp
  | ok req => rw [CheckAvailability_sent_of_newRequest hreq]; simp

theorem ReserveInventory_sent_of_newRequest {c : InventoryServiceClient} {env : Env} {ctx : Context}
    {items : Option (List CartItemForInventory)} {reservationID : String} {req : Request}
    (hreq : NewRequestWithContext env ctx "POST"
      (c.baseURL ++ "/api/v1/inventory/reserve?reservationId=" ++ reservationID)
      (some (String.mk (marshalCartItems items))) = Except.ok req) :
    (ReserveInventory c env ctx items reservationID).sent = [{ req with ContentType := some "application/json" }] := by
  cases hdo : env.Do { req with ContentType := some "application/json" } with
  | error cause => rw [ReserveInventory_of_transport_error hreq hdo]
  | ok resp =>
    by_cases hs : resp.StatusCode = 200
    · cases hdec : decodeReservationResponse resp.Body with
      | error e => rw [ReserveInventory_of_decode_error hreq hdo hs hdec]
      | ok r => rw [ReserveInventory_of_decoded hreq hdo hs hdec]
    · rw [ReserveInventory_of_status hreq hdo hs]

theorem ReserveInventory_sent_length_le_one (c : InventoryServiceClient) (env : Env) (ctx : Context)
    (items : Option (List CartItemForInventory)) (reservationID : String) :
    (ReserveInventory c env ctx items reservationID).sent.length ≤ 1 := by
  cases hreq : NewRequestWithContext env ctx "POST"
      (c.baseURL ++ "/api/v1/inventory/reserve?reservationId=" ++ reservationID)
      (some (String.mk (marshalCartItems items))) with
  | error e => rw [ReserveInventory_of_newRequest_error hreq]; simp
  | ok req => rw [ReserveInventory_sent_of_newRequest hreq]; simp

theorem ReleaseInventory_sent_of_newRequest {c : InventoryServiceClient} {env : Env} {ctx : Context}
    {reservationID : String} {req : Request}
    (hreq : NewRequestWithContext env ctx "POST"
      (c.baseURL ++ "/api/v1/inventory/release?reservationId=" ++ reservationID)
      none = Except.ok req) :
    (ReleaseInventory c env ctx reservationID).sent = [req] := by
  cases hdo : env.Do req with
  | error cause => rw [ReleaseInventory_of_transport_error hreq hdo]
  | ok resp =>
    by_cases hs : resp.StatusCode = 200
    · cases hdec : decodeReservationResponse resp.Body with
      | error e => rw [ReleaseInventory_of_decode_error hreq hdo hs hdec]
      | ok r => rw [ReleaseInventory_of_decoded hreq hdo hs hdec]
    · rw [ReleaseInventory_of_status hreq hdo hs]

theorem ReleaseInventory_sent_length_le_one (c : InventoryServiceClient) (env : Env) (ctx : Context)
    (reservationID : String) :
    (ReleaseInventory c env ctx reservationID).sent.length ≤ 1 := by
  cases hreq : NewRequestWithContext env ctx "POST"
      (c.baseURL ++ "/api/v1/inventory/release?reservationId=" ++ reservationID)
      none with
  | error e => rw [ReleaseInventory_of_newRequest_error hreq]; simp
  | ok req => rw [ReleaseInventory_sent_of_newRequest hreq]; simp

end Inventory

namespace Inventory

/-! ## Decimal digits -/

theorem digitChar_spec (k : Nat) (hk : k < 10) :
    isDigit (Nat.digitChar k) = true ∧ (Nat.digitChar k).toNat - 48 = k ∧
      (k ≠ 0 → Nat.digitChar k ≠ '0') := by
  interval_cases k <;> decide


/-- What `Nat.toDigitsCore` adds in front of its accumulator: a non-empty run of
digits whose value is `n`, without a leading zero unless `n` is zero. -/
theorem toDigitsCore_spec : ∀ (fuel n : Nat) (acc : List Char), n < fuel →
    ∃ ds, Nat.toDigitsCore 10 fuel n acc = ds ++ acc ∧ ds ≠ [] ∧
      (∀ c ∈ ds, isDigit c = true) ∧
      (∀ a tl, parseDigits a (ds ++ tl) = parseDigits (a * 10 ^ ds.length + n) tl) ∧
      (n ≠ 0 → ds.head? ≠ some '0') ∧ (n = 0 → ds = ['0']) := by
  intro fuel
  induction fuel with
  | zero => intro n acc h; exact absurd h (Nat.not_lt_zero _)
  | succ fuel ih =>
    intro n acc hn
    have hd := digitChar_spec (n % 10) (Nat.mod_lt _ (by decide))
    by_cases h0 : n / 10 = 0
    · have hlt : n < 10 := by omega
      have hmod : n % 10 = n := Nat.mod_eq_of_lt hlt
      rw [hmod] at hd
      refine ⟨[Nat.digitChar n], ?_, by simp, ?_, ?_, ?_, ?_⟩
      · simp only [Nat.toDigitsCore, h0, if_true, List.singleton_append, hmod]
      · intro c hc
        rw [List.mem_singleton] at hc
        rw [hc]; exact hd.1
      · intro a tl
        show parseDigits a (Nat.digitChar n :: tl) = _
        simp only [parseDigits, hd.1, if_true, hd.2.1, List.length_singleton, pow_one]
      · intro hne
        simp only [List.head?_cons, ne_eq, Option.some.injEq]
        exact hd.2.2 hne
      · intro hz; subst hz; rfl
    · obtain ⟨ds, e, hne, hall, hval, hhead, _⟩ :=
        ih (n / 10) (Nat.digitChar (n % 10) :: acc) (by omega)
      refine ⟨ds ++ [Nat.digitChar (n % 10)], ?_, by simp, ?_, ?_, ?_, ?_⟩
      · simp only [Nat.toDigitsCore, h0, if_false, e, List.append_assoc, List.singleton_append]
      · intro c hc
        rcases List.mem_append.1 hc with hc | hc
        · exact hall c hc
        · rw [List.mem_singleton] at hc; rw [hc]; exact hd.1
      · intro a tl
        rw [List.append_assoc, hval]
        show parseDigits _ (Nat.digitChar (n % 10) :: tl) = _
        simp only [parseDigits, hd.1, if_true, hd.2.1,
          List.length_append, List.length_singleton]
        congr 1
        have := Nat.div_add_mod n 10
        rw [pow_succ]
        nlinarith [Nat.div_add_mod n 10]
      · intro _
        cases ds with
        | nil => exact absurd rfl hne
        | cons d ds' =>
          simp only [List.cons_append, List.head?_cons]
          exact hhead h0
      · intro hz; subst hz; exact absurd rfl h0

theorem toDigits_spec (n : Nat) :
    Nat.toDigits 10 n ≠ [] ∧
      (∀ c ∈ Nat.toDigits 10 n, isDigit c = true) ∧
      (∀ a tl, parseDigits a (Nat.toDigits 10 n ++ tl)
        = parseDigits (a * 10 ^ (Nat.toDigits 10 n).length + n) tl) ∧
      (n ≠ 0 → (Nat.toDigits 10 n).head? ≠ some '0') ∧ (n = 0 → Nat.toDigits 10 n = ['0']) := by
  obtain ⟨ds, e, h⟩ := toDigitsCore_spec (n + 1) n [] (Nat.lt_succ_self n)
  rw [List.append_nil] at e
  unfold Nat.toDigits
  rw [e]
  exact h


theorem isDigit_toNat {c : Char} (h : isDigit c = true) : 48 ≤ c.toNat ∧ c.toNat ≤ 57 := by
  simpa [isDigit] using h

theorem ne_of_toNat_ne {c d : Char} (h : c.toNat ≠ d.toNat) : c ≠ d :=
  fun e => h (by rw [e])

theorem fmtInt_neg (n : Int) (h : n < 0) : fmtInt n = '-' :: Nat.toDigits 10 n.natAbs := by
  simp only [fmtInt, h, if_true]

theorem fmtInt_nonneg (n : Int) (h : 0 ≤ n) : fmtInt n = Nat.toDigits 10 n.natAbs := by
  simp only [fmtInt, not_lt.2 h, if_false]

/-- Reading back the decimal text of an integer of 64 bits gives the integer. -/
theorem parseInt64_fmtInt (n : Int) (h : fitsInt 64 n = true) : parseInt64 (fmtInt n) = some n := by
  obtain ⟨hne, hall, hval, _, _⟩ := toDigits_spec n.natAbs
  have hp : parseDigits 0 (Nat.toDigits 10 n.natAbs) = some n.natAbs := by
    have := hval 0 []
    simpa [parseDigits] using this
  simp only [fitsInt, Bool.and_eq_true, decide_eq_true_eq] at h
  obtain ⟨c, t, hct⟩ : ∃ c t, Nat.toDigits 10 n.natAbs = c :: t := by
    cases hd : Nat.toDigits 10 n.natAbs with
    | nil => exact absurd hd hne
    | cons c t => exact ⟨c, t, rfl⟩
  by_cases hn : n < 0
  · rw [fmtInt_neg n hn]
    have hle : n.natAbs ≤ 2 ^ 63 := by omega
    simp only [parseInt64, decide_True, true_or, if_true]
    rw [hct] at hp ⊢
    simp only [hp, hle, if_true, Option.some.injEq]
    omega
  · rw [fmtInt_nonneg n (not_lt.1 hn)]
    have hlt : n.natAbs < 2 ^ 63 := by omega
    have hc := isDigit_toNat (hall c (by rw [hct]; exact List.mem_cons_self _ _))
    have h1 : c ≠ '-' := ne_of_toNat_ne (by
      have : ('-' : Char).toNat = 45 := rfl
      omega)
    have h2 : c ≠ '+' := ne_of_toNat_ne (by
      have : ('+' : Char).toNat = 43 := rfl
      omega)
    rw [hct] at hp ⊢
    simp only [parseInt64, h1, h2, decide_False, or_self, if_false, hp, hlt, if_true,
      Option.some.injEq, Bool.false_eq_true]
    omega

/-- The decimal text determines the integer. -/
theorem fmtInt_injective (n m : Int) (h : fmtInt n = fmtInt m) : n = m := by
  have key : ∀ k : Int, ∃ ds, ds = Nat.toDigits 10 k.natAbs ∧
      parseDigits 0 ds = some k.natAbs ∧ ds.head? ≠ some '-' := by
    intro k
    obtain ⟨hne, hall, hval, _, _⟩ := toDigits_spec k.natAbs
    refine ⟨_, rfl, by simpa [parseDigits] using hval 0 [], ?_⟩
    cases hd : Nat.toDigits 10 k.natAbs with
    | nil => exact absurd hd hne
    | cons c t =>
      have hc := isDigit_toNat (hall c (by rw [hd]; exact List.mem_cons_self _ _))
      simp only [List.head?_cons, ne_eq, Option.some.injEq]
      exact ne_of_toNat_ne (by
        have : ('-' : Char).toNat = 45 := rfl
        omega)
  obtain ⟨dn, en, pn, hn⟩ := key n
  obtain ⟨dm, em, pm, hm⟩ := key m
  by_cases h1 : n < 0 <;> by_cases h2 : m < 0
  · rw [fmtInt_neg n h1, fmtInt_neg m h2, ← en, ← em] at h
    have e := (List.cons.inj h).2
    rw [e, pm] at pn
    have := Option.some.inj pn
    omega
  · rw [fmtInt_neg n h1, fmtInt_nonneg m (not_lt.1 h2), ← en, ← em] at h
    rw [← h] at hm
    exact absurd rfl hm
  · rw [fmtInt_nonneg n (not_lt.1 h1), fmtInt_neg m h2, ← en, ← em] at h
    rw [h] at hn
    exact absurd rfl hn
  · rw [fmtInt_nonneg n (not_lt.1 h1), fmtInt_nonneg m (not_lt.1 h2), ← en, ← em] at h
    rw [h, pm] at pn
    have := Option.some.inj pn
    omega

/-! ## Number literals -/

theorem takeDigits_append (ds tail : List Char) (hds : ∀ c ∈ ds, isDigit c = true)
    (htail : endsValue tail) : takeDigits (ds ++ tail) = (ds, tail) := by
  induction ds with
  | nil =>
    obtain ⟨t, rfl | rfl⟩ := htail <;> rfl
  | cons d ds ih =>
    have hd := hds d (List.mem_cons_self _ _)
    have := ih (fun c hc => hds c (List.mem_cons_of_mem _ hc))
    show takeDigits (d :: (ds ++ tail)) = _
    simp only [takeDigits, hd, if_true, this]

theorem scanFraction_endsValue (tail : List Char) (h : endsValue tail) :
    scanFraction tail = some ([], tail) := by
  obtain ⟨t, rfl | rfl⟩ := h <;> rfl

theorem scanExponent_endsValue (tail : List Char) (h : endsValue tail) :
    scanExponent tail = some ([], tail) := by
  obtain ⟨t, rfl | rfl⟩ := h <;> rfl

theorem scanIntPart_toDigits (n : Nat) (tail : List Char) (h : endsValue tail) :
    scanIntPart (Nat.toDigits 10 n ++ tail) = some (Nat.toDigits 10 n, tail) := by
  obtain ⟨hne, hall, _, hhead, hzero⟩ := toDigits_spec n
  by_cases hn : n = 0
  · rw [hzero hn]; rfl
  · cases hd : Nat.toDigits 10 n with
    | nil => exact absurd hd hne
    | cons c t =>
      rw [hd] at hall hhead
      have hc0 : c ≠ '0' := by
        intro e
        apply hhead hn
        rw [e]; rfl
      have hc := hall c (List.mem_cons_self _ _)
      have ht := takeDigits_append t tail (fun x hx => hall x (List.mem_cons_of_mem _ hx)) h
      show scanIntPart (c :: (t ++ tail)) = _
      simp only [scanIntPart, hc0, if_false, hc, if_true, ht]

/-- The scanner reads the decimal text of an integer as one number literal, when a comma
or a closing brace follows. -/
theorem scanNumber_fmtInt (n : Int) (tail : List Char) (h : endsValue tail) :
    scanNumber (fmtInt n ++ tail) = some (fmtInt n, tail) := by
  have hi := scanIntPart_toDigits n.natAbs tail h
  by_cases hn : n < 0
  · rw [fmtInt_neg n hn]
    show scanNumber ('-' :: (Nat.toDigits 10 n.natAbs ++ tail)) = _
    simp only [scanNumber, hi, scanFraction_endsValue tail h, scanExponent_endsValue tail h,
      List.append_nil, List.singleton_append]
  · rw [fmtInt_nonneg n (not_lt.1 hn)]
    obtain ⟨hne, hall, _, _, _⟩ := toDigits_spec n.natAbs
    cases hd : Nat.toDigits 10 n.natAbs with
    | nil => exact absurd hd hne
    | cons c t =>
      have hc := isDigit_toNat (hall c (by rw [hd]; exact List.mem_cons_self _ _))
      have h1 : c ≠ '-' := ne_of_toNat_ne (by
        have : ('-' : Char).toNat = 45 := rfl
        omega)
      rw [hd] at hi
      show scanNumber (c :: (t ++ tail)) = _
      unfold scanNumber
      split
      · rename_i heq
        exact absurd (List.cons.inj heq).1 h1
      · simp only [List.cons_append] at hi
        simp only [hi, scanFraction_endsValue tail h, scanExponent_endsValue tail h,
          List.append_nil, List.nil_append]

theorem skipSpace_of_not_space (c : Char) (t : List Char) (h : isSpace c = false) :
    skipSpace (c :: t) = c :: t := by
  simp only [skipSpace, h, Bool.false_eq_true, if_false]

theorem skipSpace_endsValue (tail : List Char) (h : endsValue tail) :
    skipSpace tail = tail := by
  obtain ⟨t, rfl | rfl⟩ := h <;> rfl

/-- A number value: the decimal text of an integer, followed by a comma or a brace. -/
theorem scanValue_fmtInt (fuel depth : Nat) (n : Int) (tail : List Char) (h : endsValue tail) :
    scanValue (fuel + 1) depth (fmtInt n ++ tail) = some (JVal.num (fmtInt n), tail) := by
  have hnum := scanNumber_fmtInt n tail h
  obtain ⟨c, t, hct, hc⟩ : ∃ c t, fmtInt n = c :: t ∧ (c = '-' ∨ isDigit c = true) := by
    by_cases hn : n < 0
    · exact ⟨'-', _, fmtInt_neg n hn, Or.inl rfl⟩
    · obtain ⟨hne, hall, _, _, _⟩ := toDigits_spec n.natAbs
      rw [fmtInt_nonneg n (not_lt.1 hn)]
      cases hd : Nat.toDigits 10 n.natAbs with
      | nil => exact absurd hd hne
      | cons c t =>
        exact ⟨c, t, rfl, Or.inr (hall c (by rw [hd]; exact List.mem_cons_self _ _))⟩
  rw [hct] at hnum ⊢
  have hrange : c.toNat = 45 ∨ (48 ≤ c.toNat ∧ c.toNat ≤ 57) := by
    rcases hc with rfl | hc
    · left; rfl
    · right; exact isDigit_toNat hc
  have hsp : isSpace c = false := by
    have e1 : c ≠ ' ' := ne_of_toNat_ne (by have : (' ' : Char).toNat = 32 := rfl; omega)
    have e2 : c ≠ '\t' := ne_of_toNat_ne (by have : ('\t' : Char).toNat = 9 := rfl; omega)
    have e3 : c ≠ '\r' := ne_of_toNat_ne (by have : ('\r' : Char).toNat = 13 := rfl; omega)
    have e4 : c ≠ '\n' := ne_of_toNat_ne (by have : ('\n' : Char).toNat = 10 := rfl; omega)
    simp [isSpace, e1, e2, e3, e4]
  have b1 : c ≠ '{' := ne_of_toNat_ne (by have : ('{' : Char).toNat = 123 := rfl; omega)
  have b2 : c ≠ '[' := ne_of_toNat_ne (by have : ('[' : Char).toNat = 91 := rfl; omega)
  have b3 : c ≠ '"' := ne_of_toNat_ne (by have : ('"' : Char).toNat = 34 := rfl; omega)
  have hor : (decide (c = '-') || isDigit c) = true := by
    rcases hc with rfl | hc
    · rfl
    · simp [hc]
  show scanValue (fuel + 1) depth (c :: (t ++ tail)) = _
  simp only [List.cons_append] at hnum
  simp only [scanValue, skipSpace_of_not_space c _ hsp, b1, b2, b3, if_false, hor, if_true, hnum]

/-! ## String literals -/

theorem hexVal_digitChar (k : Nat) (hk : k < 16) : hexVal (Nat.digitChar k) = some k := by
  interval_cases k <;> rfl

theorem unquoteUnits_lit (c : Char) (us : List StrUnit) :
    unquoteUnits (StrUnit.lit c :: us) = c :: unquoteUnits us := by
  simp only [unquoteUnits]

theorem unquoteUnits_u4 (r : Nat) (us : List StrUnit) (h : isSurrogate r = false) :
    unquoteUnits (StrUnit.u4 r :: us) = Char.ofNat r :: unquoteUnits us := by
  cases us with
  | nil => simp only [unquoteUnits, h, Bool.false_eq_true, if_false]
  | cons u us =>
    cases u with
    | lit c => simp only [unquoteUnits, h, Bool.false_eq_true, if_false]
    | u4 r2 => simp only [unquoteUnits, h, Bool.false_eq_true, if_false]


theorem scanStringLit_quote (tail : List Char) : scanStringLit ('"' :: tail) = some ([], tail) := by
  rw [scanStringLit.eq_def]; rfl

theorem scanStringLit_simpleEscape (e ch : Char) (tail : List Char) (he : e ≠ 'u')
    (h : simpleEscape e = some ch) :
    scanStringLit ('\\' :: e :: tail)
      = (scanStringLit tail).map (fun p => (StrUnit.lit ch :: p.1, p.2)) := by
  rw [scanStringLit.eq_def]
  simp only [show ('\\' : Char) ≠ '"' by decide, if_false, if_true, he, h]
  cases scanStringLit tail <;> rfl

theorem scanStringLit_u4 (a b x d : Char) (r : Nat) (tail : List Char)
    (h : hex4 a b x d = some r) :
    scanStringLit ('\\' :: 'u' :: a :: b :: x :: d :: tail)
      = (scanStringLit tail).map (fun p => (StrUnit.u4 r :: p.1, p.2)) := by
  rw [scanStringLit.eq_def]
  simp only [show ('\\' : Char) ≠ '"' by decide, if_false, if_true, h]
  cases scanStringLit tail <;> rfl

theorem scanStringLit_plain (c : Char) (tail : List Char) (h1 : c ≠ '"') (h2 : c ≠ '\\')
    (h3 : ¬ c.toNat < 32) :
    scanStringLit (c :: tail)
      = (scanStringLit tail).map (fun p => (StrUnit.lit c :: p.1, p.2)) := by
  rw [scanStringLit.eq_def]
  simp only [h1, h2, h3, if_false]
  cases scanStringLit tail <;> rfl


/-- The scanner reads the escaped form of one character as one unit, and `unquote`
turns that unit back into the character. -/
theorem scanStringLit_escapeChar (c : Char) :
    ∃ u, (∀ tail, scanStringLit (escapeChar c ++ tail)
        = (scanStringLit tail).map (fun p => (u :: p.1, p.2))) ∧
      (∀ us, unquoteUnits (u :: us) = c :: unquoteUnits us) := by
  have short : ∀ e ch : Char, e ≠ 'u' → simpleEscape e = some ch → escapeChar c = ['\\', e] →
      c = ch → ∃ u, (∀ tail, scanStringLit (escapeChar c ++ tail)
        = (scanStringLit tail).map (fun p => (u :: p.1, p.2))) ∧
      (∀ us, unquoteUnits (u :: us) = c :: unquoteUnits us) := by
    intro e ch he hs hesc hc
    refine ⟨StrUnit.lit ch, fun tail => ?_, fun us => ?_⟩
    · rw [hesc]; exact scanStringLit_simpleEscape e ch tail he hs
    · rw [hc]; exact unquoteUnits_lit _ us
  have long : ∀ a b x d : Char, hex4 a b x d = some c.toNat → isSurrogate c.toNat = false →
      escapeChar c = ['\\', 'u', a, b, x, d] →
      ∃ u, (∀ tail, scanStringLit (escapeChar c ++ tail)
        = (scanStringLit tail).map (fun p => (u :: p.1, p.2))) ∧
      (∀ us, unquoteUnits (u :: us) = c :: unquoteUnits us) := by
    intro a b x d hh hsur hesc
    refine ⟨StrUnit.u4 c.toNat, fun tail => ?_, fun us => ?_⟩
    · rw [hesc]; exact scanStringLit_u4 a b x d c.toNat tail hh
    · rw [unquoteUnits_u4 _ _ hsur, Char.ofNat_toNat]
  by_cases h1 : c = '"'
  · subst h1; exact short '"' '"' (by decide) rfl rfl rfl
  by_cases h2 : c = '\\'
  · subst h2; exact short '\\' '\\' (by decide) rfl rfl rfl
  by_cases h3 : c = Char.ofNat 8
  · subst h3; exact short 'b' (Char.ofNat 8) (by decide) rfl rfl rfl
  by_cases h4 : c = Char.ofNat 12
  · subst h4; exact short 'f' (Char.ofNat 12) (by decide) rfl rfl rfl
  by_cases h5 : c = '\n'
  · subst h5; exact short 'n' '\n' (by decide) rfl rfl rfl
  by_cases h6 : c = '\r'
  · subst h6; exact short 'r' '\r' (by decide) rfl rfl rfl
  by_cases h7 : c = '\t'
  · subst h7; exact short 't' '\t' (by decide) rfl rfl rfl
  by_cases h8 : c.toNat < 32 ∨ c = '<' ∨ c = '>' ∨ c = '&'
  · have hlt : c.toNat < 128 := by
      rcases h8 with h | h | h | h
      · omega
      · rw [h]; decide
      · rw [h]; decide
      · rw [h]; decide
    have hx := hexVal_digitChar (c.toNat / 16) (by omega)
    have hy := hexVal_digitChar (c.toNat % 16) (Nat.mod_lt _ (by decide))
    have h0 : hexVal '0' = some 0 := rfl
    apply long '0' '0' (Nat.digitChar (c.toNat / 16)) (Nat.digitChar (c.toNat % 16))
    · simp only [hex4, h0, hx, hy, Option.some.injEq]
      omega
    · simp only [isSurrogate, Bool.and_eq_false_imp, decide_eq_true_eq, decide_eq_false_iff_not]
      omega
    · simp only [escapeChar, h1, h2, h3, h4, h5, h6, h7, h8, if_false, if_true]
  by_cases h9 : c = Char.ofNat 0x2028
  · subst h9; exact long '2' '0' '2' '8' rfl (by decide) rfl
  by_cases h10 : c = Char.ofNat 0x2029
  · subst h10; exact long '2' '0' '2' '9' rfl (by decide) rfl
  have hesc : escapeChar c = [c] := by
    simp only [escapeChar, h1, h2, h3, h4, h5, h6, h7, h8, h9, h10, if_false]
  refine ⟨StrUnit.lit c, fun tail => ?_, fun us => unquoteUnits_lit _ us⟩
  rw [hesc]
  exact scanStringLit_plain c tail h1 h2 (fun h => h8 (Or.inl h))

/-- The scanner reads the escaped form of a text up to the closing quote, and `unquote`
gives the text back. -/
theorem scanStringLit_escapeString (s tail : List Char) :
    ∃ us, scanStringLit (escapeString s ++ '"' :: tail) = some (us, tail) ∧
      unquoteUnits us = s := by
  induction s with
  | nil => exact ⟨[], scanStringLit_quote tail, rfl⟩
  | cons c s ih =>
    obtain ⟨us, h1, h2⟩ := ih
    obtain ⟨u, hu1, hu2⟩ := scanStringLit_escapeChar c
    refine ⟨u :: us, ?_, ?_⟩
    · show scanStringLit (escapeChar c ++ escapeString s ++ '"' :: tail) = _
      rw [List.append_assoc, hu1, h1]; rfl
    · rw [hu2, h2]

/-- A string value: the encoding of a Go string is read back as that string. -/
theorem scanValue_marshalString (fuel depth : Nat) (s : String) (tail : List Char) :
    scanValue (fuel + 1) depth (marshalString s ++ tail) = some (JVal.str s.data, tail) := by
  obtain ⟨us, h1, h2⟩ := scanStringLit_escapeString s.data tail
  show scanValue (fuel + 1) depth ('"' :: (escapeString s.data ++ ['"'] ++ tail)) = _
  have e : escapeString s.data ++ ['"'] ++ tail = escapeString s.data ++ '"' :: tail := by
    simp
  rw [e]
  have hsp : skipSpace ('"' :: (escapeString s.data ++ '"' :: tail))
      = '"' :: (escapeString s.data ++ '"' :: tail) := rfl
  simp only [scanValue, hsp, h1, h2]
  simp

/-! ## Objects -/

/-- One member of an object that is followed by a comma: the key, written as a string
literal, a colon, and a value that the scanner reads as `v`. -/
theorem scanMembers_comma (fuel depth : Nat) (key : String) (valText : List Char) (v : JVal)
    (t : List Char)
    (hval : scanValue fuel depth (valText ++ ',' :: t) = some (v, ',' :: t)) :
    scanMembers (fuel + 1) depth (marshalString key ++ ':' :: (valText ++ ',' :: t))
      = (scanMembers fuel depth (skipSpace t)).map (fun p => ((key.data, v) :: p.1, p.2)) := by
  obtain ⟨us, h1, h2⟩ := scanStringLit_escapeString key.data (':' :: (valText ++ ',' :: t))
  have e : marshalString key ++ ':' :: (valText ++ ',' :: t)
      = '"' :: (escapeString key.data ++ '"' :: ':' :: (valText ++ ',' :: t)) := by
    simp [marshalString]
  have s1 : skipSpace (':' :: (valText ++ ',' :: t)) = ':' :: (valText ++ ',' :: t) := rfl
  have s2 : skipSpace (',' :: t) = ',' :: t := rfl
  rw [e]
  simp only [scanMembers, if_true, h1, s1, hval, s2, h2]
  cases scanMembers fuel depth (skipSpace t) <;> rfl

/-- The last member of an object, followed by the closing brace. -/
theorem scanMembers_brace (fuel depth : Nat) (key : String) (valText : List Char) (v : JVal)
    (t : List Char)
    (hval : scanValue fuel depth (valText ++ '}' :: t) = some (v, '}' :: t)) :
    scanMembers (fuel + 1) depth (marshalString key ++ ':' :: (valText ++ '}' :: t))
      = some ([(key.data, v)], t) := by
  obtain ⟨us, h1, h2⟩ := scanStringLit_escapeString key.data (':' :: (valText ++ '}' :: t))
  have e : marshalString key ++ ':' :: (valText ++ '}' :: t)
      = '"' :: (escapeString key.data ++ '"' :: ':' :: (valText ++ '}' :: t)) := by
    simp [marshalString]
  have s1 : skipSpace (':' :: (valText ++ '}' :: t)) = ':' :: (valText ++ '}' :: t) := rfl
  have s2 : skipSpace ('}' :: t) = '}' :: t := rfl
  rw [e]
  simp only [scanMembers, if_true, h1, s1, hval, s2, h2]
  simp

theorem skipSpace_marshalString (key : String) (t : List Char) :
    skipSpace (marshalString key ++ t) = marshalString key ++ t := rfl

/-! ## The scanner consumes its input, and its fuel is enough -/

theorem skipSpace_length_le (cs : List Char) : (skipSpace cs).length ≤ cs.length := by
  induction cs with
  | nil => exact Nat.le_refl _
  | cons c cs ih =>
    by_cases h : isSpace c = true
    · simp only [skipSpace, h, if_true, List.length_cons]; omega
    · simp only [skipSpace, h, if_false]; exact Nat.le_refl _

theorem scanStringLit_length_lt : ∀ (n : Nat) (cs : List Char), cs.length ≤ n →
    ∀ us out, scanStringLit cs = some (us, out) → out.length < cs.length := by
  intro n
  induction n with
  | zero =>
    intro cs hn us out h
    cases cs with
    | nil => rw [scanStringLit.eq_def] at h; cases h
    | cons c cs => simp at hn
  | succ n ih =>
    intro cs hn us out h
    rw [scanStringLit.eq_def] at h
    cases cs with
    | nil => cases h
    | cons c cs =>
      simp only [List.length_cons] at hn ⊢
      simp only at h
      by_cases h1 : c = '"'
      · simp only [h1, if_true, Option.some.injEq, Prod.mk.injEq] at h
        rw [← h.2]; omega
      · simp only [h1, if_false] at h
        by_cases h2 : c = '\\'
        · simp only [h2, if_true] at h
          cases cs with
          | nil => cases h
          | cons e es =>
            simp only at h
            by_cases h3 : e = 'u'
            · simp only [h3, if_true] at h
              match es, h with
              | a :: b :: x :: d :: rest, h =>
                simp only at h
                cases hh : hex4 a b x d with
                | none => simp only [hh] at h; cases h
                | some r =>
                  simp only [hh] at h
                  cases hr : scanStringLit rest with
                  | none => simp only [hr] at h; cases h
                  | some p =>
                    obtain ⟨us', out'⟩ := p
                    simp only [hr, Option.some.injEq, Prod.mk.injEq] at h
                    have := ih rest (by simp only [List.length_cons] at hn ⊢; omega) us' out' hr
                    rw [← h.2]
                    simp only [List.length_cons]; omega
              | [], h => cases h
              | [_], h => cases h
              | [_, _], h => cases h
              | [_, _, _], h => cases h
            · simp only [h3, if_false] at h
              cases hs : simpleEscape e with
              | none => simp only [hs] at h; cases h
              | some ch =>
                simp only [hs] at h
                cases hr : scanStringLit es with
                | none => simp only [hr] at h; cases h
                | some p =>
                  obtain ⟨us', out'⟩ := p
                  simp only [hr, Option.some.injEq, Prod.mk.injEq] at h
                  have := ih es (by simp only [List.length_cons] at hn ⊢; omega) us' out' hr
                  rw [← h.2]
                  simp only [List.length_cons]; omega
        · simp only [h2, if_false] at h
          by_cases h3 : c.toNat < 32
          · simp only [h3, if_true] at h; cases h
          · simp only [h3, if_false] at h
            cases hr : scanStringLit cs with
            | none => simp only [hr] at h; cases h
            | some p =>
              obtain ⟨us', out'⟩ := p
              simp only [hr, Option.some.injEq, Prod.mk.injEq] at h
              have := ih cs (by omega) us' out' hr
              rw [← h.2]; omega

theorem takeDigits_length_le (cs : List Char) : (takeDigits cs).2.length ≤ cs.length := by
  induction cs with
  | nil => exact Nat.le_refl _
  | cons c cs ih =>
    by_cases h : isDigit c = true
    · simp only [takeDigits, h, if_true, List.length_cons]; omega
    · simp only [takeDigits, h, if_false]; exact Nat.le_refl _

theorem scanIntPart_length_lt (cs ip out : List Char) (h : scanIntPart cs = some (ip, out)) :
    out.length < cs.length := by
  cases cs with
  | nil => simp [scanIntPart] at h
  | cons c r =>
    have := takeDigits_length_le r
    simp only [scanIntPart] at h
    split_ifs at h
    · simp only [Option.some.injEq, Prod.mk.injEq] at h
      rw [← h.2]; simp
    · simp only [Option.some.injEq, Prod.mk.injEq] at h
      rw [← h.2]; simp only [List.length_cons]; omega

theorem scanFraction_length_le (cs fp out : List Char) (h : scanFraction cs = some (fp, out)) :
    out.length ≤ cs.length := by
  cases cs with
  | nil =>
    simp only [scanFraction, Option.some.injEq, Prod.mk.injEq] at h
    rw [← h.2]
  | cons c r =>
    have ht := takeDigits_length_le r
    simp only [scanFraction] at h
    split_ifs at h
    · revert h
      cases hd : takeDigits r with
      | mk ds r1 =>
        rw [hd] at ht
        cases ds with
        | nil => intro h; cases h
        | cons x xs =>
          intro h
          simp only [Option.some.injEq, Prod.mk.injEq] at h
          rw [← h.2]; simp only [List.length_cons]; simp only at ht; omega
    · simp only [Option.some.injEq, Prod.mk.injEq] at h
      rw [← h.2]

theorem scanExponent_length_le (cs ep out : List Char) (h : scanExponent cs = some (ep, out)) :
    out.length ≤ cs.length := by
  cases cs with
  | nil =>
    simp only [scanExponent, Option.some.injEq, Prod.mk.injEq] at h
    rw [← h.2]
  | cons c r =>
    simp only [scanExponent] at h
    split_ifs at h
    · cases r with
      | nil => cases h
      | cons s r1 =>
        dsimp only at h
        split_ifs at h
        · have ht := takeDigits_length_le r1
          revert h
          cases hd : takeDigits r1 with
          | mk ds r2 =>
            rw [hd] at ht
            cases ds with
            | nil => intro h; cases h
            | cons x xs =>
              intro h
              simp only [Option.some.injEq, Prod.mk.injEq] at h
              rw [← h.2]; simp only [List.length_cons]; simp only at ht; omega
        · have ht := takeDigits_length_le (s :: r1)
          revert h
          cases hd : takeDigits (s :: r1) with
          | mk ds r2 =>
            rw [hd] at ht
            cases ds with
            | nil => intro h; cases h
            | cons x xs =>
              intro h
              simp only [Option.some.injEq, Prod.mk.injEq] at h
              rw [← h.2]; simp only [List.length_cons] at ht ⊢; omega
    · simp only [Option.some.injEq, Prod.mk.injEq] at h
      rw [← h.2]

theorem scanNumber_length_lt (cs lit out : List Char) (h : scanNumber cs = some (lit, out)) :
    out.length < cs.length := by
  have core : ∀ (sign a : List Char), a.length ≤ cs.length →
      (match scanIntPart a with
        | none => none
        | some (ip, r1) =>
          match scanFraction r1 with
          | none => none
          | some (fp, r2) =>
            match scanExponent r2 with
            | none => none
            | some (ep, r3) => some (sign ++ ip ++ fp ++ ep, r3)) = some (lit, out) →
      out.length < cs.length := by
    intro sign a hle h
    cases hi : scanIntPart a with
    | none => simp only [hi] at h; cases h
    | some p1 =>
      obtain ⟨ip, r1⟩ := p1
      have l1 := scanIntPart_length_lt a ip r1 hi
      simp only [hi] at h
      cases hf : scanFraction r1 with
      | none => simp only [hf] at h; cases h
      | some p2 =>
        obtain ⟨fp, r2⟩ := p2
        have l2 := scanFraction_length_le r1 fp r2 hf
        simp only [hf] at h
        cases he : scanExponent r2 with
        | none => simp only [he] at h; cases h
        | some p3 =>
          obtain ⟨ep, r3⟩ := p3
          have l3 := scanExponent_length_le r2 ep r3 he
          simp only [he, Option.some.injEq, Prod.mk.injEq] at h
          rw [← h.2]; omega
  unfold scanNumber at h
  split at h
  · exact core _ _ (by simp) h
  · exact core _ _ (Nat.le_refl _) h

/-- A value that is not an array or an object: what the scanner leaves is shorter than
what it was given. -/
theorem scanValue_scalar_length (n d : Nat) (cs : List Char) (c : Char) (rest : List Char)
    (r : JVal × List Char) (hsk : skipSpace cs = c :: rest) (hb : c ≠ '{') (hb2 : c ≠ '[')
    (h : scanValue (n + 1) d cs = some r) : r.2.length < (c :: rest).length := by
  simp only [scanValue, hsk, hb, hb2, if_false] at h
  by_cases hq : c = '"'
  · simp only [hq, if_true] at h
    cases hs : scanStringLit rest with
    | none => simp only [hs] at h; cases h
    | some p =>
      obtain ⟨us, out⟩ := p
      simp only [hs, Option.some.injEq] at h
      have := scanStringLit_length_lt rest.length rest (Nat.le_refl _) us out hs
      rw [← h]; simp only [List.length_cons]; omega
  · simp only [hq, if_false] at h
    cases hnum : (decide (c = '-') || isDigit c) with
    | true =>
      simp only [hnum, if_true] at h
      cases hs : scanNumber (c :: rest) with
      | none => simp only [hs] at h; cases h
      | some p =>
        obtain ⟨lit, out⟩ := p
        simp only [hs, Option.some.injEq] at h
        have := scanNumber_length_lt (c :: rest) lit out hs
        rw [← h]; exact this
    | false =>
      simp only [hnum, Bool.false_eq_true, if_false] at h
      by_cases h1 : c = 't'
      · simp only [h1, if_true] at h
        split at h
        · simp only [Option.some.injEq] at h
          rw [← h]; simp only [List.length_cons]; omega
        · cases h
      · simp only [h1, if_false] at h
        by_cases h2 : c = 'f'
        · simp only [h2, if_true] at h
          split at h
          · simp only [Option.some.injEq] at h
            rw [← h]; simp only [List.length_cons]; omega
          · cases h
        · simp only [h2, if_false] at h
          by_cases h3 : c = 'n'
          · simp only [h3, if_true] at h
            split at h
            · simp only [Option.some.injEq] at h
              rw [← h]; simp only [List.length_cons]; omega
            · cases h
          · simp only [h3, if_false] at h; cases h

theorem scanValue_scalar_fuel (n g d : Nat) (cs : List Char) (c : Char) (rest : List Char)
    (hsk : skipSpace cs = c :: rest) (hb : c ≠ '{') (hb2 : c ≠ '[') :
    scanValue (g + 1) d cs = scanValue (n + 1) d cs := by
  simp only [scanValue, hsk, hb, hb2, if_false]


/-- Fuel is never what makes the scanner fail: a scan that succeeds with some fuel
consumes at least one character and succeeds, with the same result, with any fuel that
is at least the number of characters it consumes. -/
theorem scan_fuel : ∀ n : Nat,
    (∀ d cs r, scanValue n d cs = some r →
      r.2.length < cs.length ∧
        ∀ f, cs.length - r.2.length ≤ f → scanValue f d cs = some r) ∧
    (∀ d cs r, scanMembers n d cs = some r →
      r.2.length < cs.length ∧
        ∀ f, cs.length - r.2.length ≤ f → scanMembers f d cs = some r) ∧
    (∀ d cs r, scanElems n d cs = some r →
      r.2.length < cs.length ∧
        ∀ f, cs.length - r.2.length ≤ f → scanElems f d cs = some r) := by
  intro n
  induction n with
  | zero =>
    refine ⟨?_, ?_, ?_⟩
    · intro d cs r h; simp only [scanValue] at h; cases h
    · intro d cs r h; simp only [scanMembers] at h; cases h
    · intro d cs r h; simp only [scanElems] at h; cases h
  | succ n ih =>
    obtain ⟨ihV, ihM, ihE⟩ := ih
    have stepV : ∀ d cs r, scanValue (n + 1) d cs = some r →
        r.2.length < cs.length ∧
          ∀ f, cs.length - r.2.length ≤ f → scanValue f d cs = some r := by
      intro d cs r h
      suffices key : r.2.length < cs.length ∧
          ∀ g, cs.length - r.2.length ≤ g + 1 → scanValue (g + 1) d cs = some r by
        refine ⟨key.1, fun f hf => ?_⟩
        cases f with
        | zero => have := key.1; omega
        | succ g => exact key.2 g hf
      have hs := skipSpace_length_le cs
      cases hsk : skipSpace cs with
      | nil => simp only [scanValue, hsk] at h; cases h
      | cons c rest =>
        rw [hsk] at hs
        simp only [List.length_cons] at hs
        by_cases hb : c = '{'
        · by_cases hdep : maxNestingDepth < d + 1
          · simp only [scanValue, hsk, hb, if_true, hdep] at h; cases h
          · have hs1 := skipSpace_length_le rest
            cases hsk1 : skipSpace rest with
            | nil => simp only [scanValue, hsk, hb, if_true, hdep, if_false, hsk1] at h; cases h
            | cons c1 r1 =>
              rw [hsk1] at hs1
              simp only [List.length_cons] at hs1
              by_cases hc1 : c1 = '}'
              · simp only [scanValue, hsk, hb, if_true, hdep, if_false, hsk1, hc1,
                  Option.some.injEq] at h
                subst h
                refine ⟨by simp only []; omega, fun g _ => ?_⟩
                simp only [scanValue, hsk, hb, if_true, hdep, if_false, hsk1, hc1]
              · cases hm : scanMembers n (d + 1) (c1 :: r1) with
                | none =>
                  simp only [scanValue, hsk, hb, if_true, hdep, if_false, hsk1, hc1, hm] at h
                  cases h
                | some p =>
                  simp only [scanValue, hsk, hb, if_true, hdep, if_false, hsk1, hc1, hm,
                    Option.some.injEq] at h
                  subst h
                  obtain ⟨l, mono⟩ := ihM (d + 1) (c1 :: r1) p hm
                  simp only [List.length_cons] at l mono
                  refine ⟨by simp only []; omega, fun g hg => ?_⟩
                  simp only [] at hg
                  have := mono g (by omega)
                  simp only [scanValue, hsk, hb, if_true, hdep, if_false, hsk1, hc1, this]
        · by_cases hb2 : c = '['
          · have hb' : c ≠ '{' := hb
            by_cases hdep : maxNestingDepth < d + 1
            · simp only [scanValue, hsk, hb', hb2, if_true, if_false, hdep] at h
              revert h; simp
            · have hs1 := skipSpace_length_le rest
              have hne : ('[' : Char) ≠ '{' := by decide
              cases hsk1 : skipSpace rest with
              | nil =>
                simp only [scanValue, hsk, hb2, hne, if_true, hdep, if_false, hsk1] at h
                cases h
              | cons c1 r1 =>
                rw [hsk1] at hs1
                simp only [List.length_cons] at hs1
                by_cases hc1 : c1 = ']'
                · simp only [scanValue, hsk, hb2, hne, if_true, hdep, if_false, hsk1, hc1,
                    Option.some.injEq] at h
                  subst h
                  refine ⟨by simp only []; omega, fun g _ => ?_⟩
                  simp only [scanValue, hsk, hb2, hne, if_true, hdep, if_false, hsk1, hc1]
                · cases hm : scanElems n (d + 1) (c1 :: r1) with
                  | none =>
                    simp only [scanValue, hsk, hb2, hne, if_true, hdep, if_false, hsk1, hc1,
                      hm] at h
                    cases h
                  | some p =>
                    simp only [scanValue, hsk, hb2, hne, if_true, hdep, if_false, hsk1, hc1,
                      hm, Option.some.injEq] at h
                    subst h
                    obtain ⟨l, mono⟩ := ihE (d + 1) (c1 :: r1) p hm
                    simp only [List.length_cons] at l mono
                    refine ⟨by simp only []; omega, fun g hg => ?_⟩
                    simp only [] at hg
                    have := mono g (by omega)
                    simp only [scanValue, hsk, hb2, hne, if_true, hdep, if_false, hsk1, hc1,
                      this]
          · have l := scanValue_scalar_length n d cs c rest r hsk hb hb2 h
            simp only [List.length_cons] at l
            refine ⟨by omega, fun g _ => ?_⟩
            rw [scanValue_scalar_fuel n g d cs c rest hsk hb hb2]; exact h
    have stepM : ∀ d cs r, scanMembers (n + 1) d cs = some r →
        r.2.length < cs.length ∧
          ∀ f, cs.length - r.2.length ≤ f → scanMembers f d cs = some r := by
      intro d cs r h
      suffices key : r.2.length < cs.length ∧
          ∀ g, cs.length - r.2.length ≤ g + 1 → scanMembers (g + 1) d cs = some r by
        refine ⟨key.1, fun f hf => ?_⟩
        cases f with
        | zero => have := key.1; omega
        | succ g => exact key.2 g hf
      cases cs with
      | nil => simp only [scanMembers] at h; cases h
      | cons q r0 =>
        by_cases hq : q = '"'
        · cases hk : scanStringLit r0 with
          | none => simp only [scanMembers, hq, if_true, hk] at h; cases h
          | some pk =>
            obtain ⟨ku, r1⟩ := pk
            have lk := scanStringLit_length_lt r0.length r0 (Nat.le_refl _) ku r1 hk
            have hs1 := skipSpace_length_le r1
            cases hsk1 : skipSpace r1 with
            | nil => simp only [scanMembers, hq, if_true, hk, hsk1] at h; cases h
            | cons colon r2 =>
              rw [hsk1] at hs1
              simp only [List.length_cons] at hs1
              by_cases hcol : colon = ':'
              · cases hv : scanValue n d r2 with
                | none => simp only [scanMembers, hq, if_true, hk, hsk1, hcol, hv] at h; cases h
                | some pv =>
                  obtain ⟨v, r3⟩ := pv
                  obtain ⟨lv, monoV⟩ := ihV d r2 (v, r3) hv
                  simp only [] at lv monoV
                  have hs3 := skipSpace_length_le r3
                  cases hsk3 : skipSpace r3 with
                  | nil =>
                    simp only [scanMembers, hq, if_true, hk, hsk1, hcol, hv, hsk3] at h
                    cases h
                  | cons sep r4 =>
                    rw [hsk3] at hs3
                    simp only [List.length_cons] at hs3
                    by_cases hsep : sep = ','
                    · have hs4 := skipSpace_length_le r4
                      cases hm : scanMembers n d (skipSpace r4) with
                      | none =>
                        simp only [scanMembers, hq, if_true, hk, hsk1, hcol, hv, hsk3, hsep,
                          hm] at h
                        cases h
                      | some pm =>
                        obtain ⟨ms, out⟩ := pm
                        obtain ⟨lm, monoM⟩ := ihM d (skipSpace r4) (ms, out) hm
                        simp only [] at lm monoM
                        simp only [scanMembers, hq, if_true, hk, hsk1, hcol, hv, hsk3, hsep,
                          hm, Option.some.injEq] at h
                        subst h
                        simp only [List.length_cons]
                        refine ⟨by omega, fun g hg => ?_⟩
                        have e1 := monoV g (by omega)
                        have e2 := monoM g (by omega)
                        simp only [scanMembers, hq, if_true, hk, hsk1, hcol, e1, hsk3, hsep, e2]
                    · by_cases hsep2 : sep = '}'
                      · subst hsep2
                        have hne : ('}' : Char) ≠ ',' := by decide
                        simp only [scanMembers, hq, if_true, hk, hsk1, hcol, hv, hsk3, hne,
                          if_false, Option.some.injEq] at h
                        subst h
                        simp only [List.length_cons]
                        refine ⟨by omega, fun g hg => ?_⟩
                        have e1 := monoV g (by omega)
                        simp only [scanMembers, hq, if_true, hk, hsk1, hcol, e1, hsk3, hne,
                          if_false]
                      · simp only [scanMembers, hq, if_true, hk, hsk1, hcol, hv, hsk3, hsep,
                          if_false, hsep2] at h
                        cases h
              · simp only [scanMembers, hq, if_true, hk, hsk1, hcol, if_false] at h; cases h
        · simp only [scanMembers, hq, if_false] at h; cases h
    have stepE : ∀ d cs r, scanElems (n + 1) d cs = some r →
        r.2.length < cs.length ∧
          ∀ f, cs.length - r.2.length ≤ f → scanElems f d cs = some r := by
      intro d cs r h
      suffices key : r.2.length < cs.length ∧
          ∀ g, cs.length - r.2.length ≤ g + 1 → scanElems (g + 1) d cs = some r by
        refine ⟨key.1, fun f hf => ?_⟩
        cases f with
        | zero => have := key.1; omega
        | succ g => exact key.2 g hf
      cases hv : scanValue n d cs with
      | none => simp only [scanElems, hv] at h; cases h
      | some pv =>
        obtain ⟨v, r1⟩ := pv
        obtain ⟨lv, monoV⟩ := ihV d cs (v, r1) hv
        simp only [] at lv monoV
        have hs1 := skipSpace_length_le r1
        cases hsk1 : skipSpace r1 with
        | nil => simp only [scanElems, hv, hsk1] at h; cases h
        | cons sep r2 =>
          rw [hsk1] at hs1
          simp only [List.length_cons] at hs1
          by_cases hsep : sep = ','
          · cases hm : scanElems n d r2 with
            | none => simp only [scanElems, hv, hsk1, hsep, if_true, hm] at h; cases h
            | some pm =>
              obtain ⟨vs, out⟩ := pm
              obtain ⟨lm, monoE⟩ := ihE d r2 (vs, out) hm
              simp only [] at lm monoE
              simp only [scanElems, hv, hsk1, hsep, if_true, hm, Option.some.injEq] at h
              subst h
              refine ⟨by simp only []; omega, fun g hg => ?_⟩
              simp only [] at hg
              have e1 := monoV g (by omega)
              have e2 := monoE g (by omega)
              simp only [scanElems, e1, hsk1, hsep, if_true, e2]
          · by_cases hsep2 : sep = ']'
            · subst hsep2
              have hne : (']' : Char) ≠ ',' := by decide
              simp only [scanElems, hv, hsk1, hne, if_false, if_true,
                Option.some.injEq] at h
              subst h
              refine ⟨by simp only []; omega, fun g hg => ?_⟩
              simp only [] at hg
              have e1 := monoV g (by omega)
              simp only [scanElems, e1, hsk1, hne, if_false, if_true]
            · simp only [scanElems, hv, hsk1, hsep, if_false, hsep2] at h; cases h
    exact ⟨stepV, stepM, stepE⟩

/-- The fuel that `readValue` provides is enough: if the scanner finds a first value
with any amount of fuel, `readValue` finds the same value. -/
theorem readValue_complete (fuel : Nat) (body : List Char) (r : JVal × List Char)
    (h : scanValue fuel 0 body = some r) : readValue body = some r := by
  obtain ⟨l, mono⟩ := (scan_fuel fuel).1 0 body r h
  exact mono (body.length + 1) (by omega)

/-- The function `readValue` fails exactly when no amount of fuel lets the scanner find a
first value: the body does not start with a complete JSON value. -/
theorem readValue_eq_none_iff (body : List Char) :
    readValue body = none ↔ ∀ fuel, scanValue fuel 0 body = none := by
  constructor
  · intro h fuel
    cases hs : scanValue fuel 0 body with
    | none => rfl
    | some r => rw [readValue_complete fuel body r hs] at h; cases h
  · intro h
    exact h (body.length + 1)

/-! ## URLs and queries -/

end Inventory

namespace Inventory

/-! ## The redirect loop of the HTTP client -/

/-- A response that is not a redirect the client follows is what `Do` returns, after
one round trip. -/
theorem Do_of_final_reply (env : Env) (req : Request) (reply : Reply)
    (hrt : env.RoundTrip req = Except.ok reply)
    (hfinal : redirectBehavior req.Method reply.resp.StatusCode = none ∨ reply.Location = "") :
    env.Do req = Except.ok reply.resp ∧ env.trips req = [req] := by
  unfold Env.Do Env.trips
  simp only [clientLoop, hrt]
  cases hrb : redirectBehavior req.Method reply.resp.StatusCode with
  | none => exact ⟨rfl, rfl⟩
  | some p =>
    rcases hfinal with h | h
    · rw [hrb] at h; cases h
    · simp only [h, if_true, and_self]

theorem redirectBehavior_200 (method : String) : redirectBehavior method 200 = none := by
  simp [redirectBehavior]

/-- A response with status 200 is never a redirect: `Do` returns it after the one round
trip. -/
theorem Do_of_status_200 (env : Env) (req : Request) (reply : Reply)
    (hrt : env.RoundTrip req = Except.ok reply) (h : reply.resp.StatusCode = 200) :
    env.Do req = Except.ok reply.resp ∧ env.trips req = [req] :=
  Do_of_final_reply env req reply hrt (Or.inl (by rw [h]; exact redirectBehavior_200 _))

end Inventory

namespace Inventory

/-! ## UTF-8 -/

theorem char_toNat_valid (c : Char) :
    c.toNat < 0xD800 ∨ (0xDFFF < c.toNat ∧ c.toNat < 0x110000) := by
  have h := c.valid
  simpa [Char.toNat, UInt32.isValidChar, Nat.isValidChar] using h

/-- Decoding the UTF-8 encoding of a code point gives the code point and the width of
the encoding. -/
theorem decodeRune_utf8Bytes (c : Char) (rest : GoString) :
    decodeRune (utf8Bytes c ++ rest) = some (c, (utf8Bytes c).length) := by
  have hv := char_toNat_valid c
  have hc : Char.ofNat c.toNat = c := Char.ofNat_toNat c
  unfold utf8Bytes
  by_cases h1 : c.toNat < 0x80
  · simp only [h1, if_true, List.singleton_append, decodeRune, hc, List.length_singleton]
  · simp only [h1, if_false]
    by_cases h2 : c.toNat < 0x800
    · simp only [h2, if_true, List.cons_append, List.nil_append, decodeRune]
      have a1 : ¬ (0xC0 + c.toNat / 64 < 0x80) := by omega
      have a2 : ¬ (0xC0 + c.toNat / 64 < 0xC2) := by omega
      have a3 : 0xC0 + c.toNat / 64 < 0xE0 := by omega
      have a4 : 0x80 ≤ 0x80 + c.toNat % 64 ∧ 0x80 + c.toNat % 64 ≤ 0xBF := by omega
      have a5 : (0xC0 + c.toNat / 64) % 32 * 64 + (0x80 + c.toNat % 64) % 64 = c.toNat := by
        omega
      simp only [a1, a2, a3, a4, a5, hc, if_true, if_false, and_self, List.length_cons,
        List.length_nil]
    · simp only [h2, if_false]
      by_cases h3 : c.toNat < 0x10000
      · simp only [h3, if_true, List.cons_append, List.nil_append, decodeRune]
        have a1 : ¬ (0xE0 + c.toNat / 4096 < 0x80) := by omega
        have a2 : ¬ (0xE0 + c.toNat / 4096 < 0xC2) := by omega
        have a3 : ¬ (0xE0 + c.toNat / 4096 < 0xE0) := by omega
        have a4 : 0xE0 + c.toNat / 4096 < 0xF0 := by omega
        have a5 : (if 0xE0 + c.toNat / 4096 = 0xE0 then 0xA0 else 0x80)
            ≤ 0x80 + c.toNat / 64 % 64 := by
          split_ifs <;> omega
        have a6 : 0x80 + c.toNat / 64 % 64
            ≤ (if 0xE0 + c.toNat / 4096 = 0xED then 0x9F else 0xBF) := by
          split_ifs <;> omega
        have a7 : 0x80 ≤ 0x80 + c.toNat % 64 ∧ 0x80 + c.toNat % 64 ≤ 0xBF := by omega
        have a8 : (0xE0 + c.toNat / 4096) % 16 * 4096 + (0x80 + c.toNat / 64 % 64) % 64 * 64
            + (0x80 + c.toNat % 64) % 64 = c.toNat := by omega
        simp only [a1, a2, a3, a4, a5, a6, a7, a8, hc, if_true, if_false, and_self,
          List.length_cons, List.length_nil]
      · simp only [h3, if_false, List.cons_append, List.nil_append, decodeRune]
        have a1 : ¬ (0xF0 + c.toNat / 262144 < 0x80) := by omega
        have a2 : ¬ (0xF0 + c.toNat / 262144 < 0xC2) := by omega
        have a3 : ¬ (0xF0 + c.toNat / 262144 < 0xE0) := by omega
        have a4 : ¬ (0xF0 + c.toNat / 262144 < 0xF0) := by omega
        have a4' : 0xF0 + c.toNat / 262144 < 0xF5 := by omega
        have a5 : (if 0xF0 + c.toNat / 262144 = 0xF0 then 0x90 else 0x80)
            ≤ 0x80 + c.toNat / 4096 % 64 := by
          split_ifs <;> omega
        have a6 : 0x80 + c.toNat / 4096 % 64
            ≤ (if 0xF0 + c.toNat / 262144 = 0xF4 then 0x8F else 0xBF) := by
          split_ifs <;> omega
        have a7 : 0x80 ≤ 0x80 + c.toNat / 64 % 64 ∧ 0x80 + c.toNat / 64 % 64 ≤ 0xBF := by
          omega
        have a7' : 0x80 ≤ 0x80 + c.toNat % 64 ∧ 0x80 + c.toNat % 64 ≤ 0xBF := by omega
        have a8 : (0xF0 + c.toNat / 262144) % 8 * 262144
            + (0x80 + c.toNat / 4096 % 64) % 64 * 4096
            + (0x80 + c.toNat / 64 % 64) % 64 * 64
            + (0x80 + c.toNat % 64) % 64 = c.toNat := by omega
        simp only [a1, a2, a3, a4, a4', a5, a6, a7, a7', a8, hc, if_true, if_false, and_self,
          List.length_cons, List.length_nil]

theorem utf8Bytes_ne_nil (c : Char) : ∃ b t, utf8Bytes c = b :: t := by
  unfold utf8Bytes
  split_ifs <;> exact ⟨_, _, rfl⟩

theorem escapeFrom_skip (bs rest : GoString) :
    escapeFrom bs.length (bs ++ rest) = escapeFrom 0 rest := by
  induction bs with
  | nil => rfl
  | cons b bs ih =>
    show escapeFrom (bs.length + 1) (b :: (bs ++ rest)) = _
    cases h : bs ++ rest with
    | nil =>
      have : bs = [] ∧ rest = [] := List.append_eq_nil.1 h
      rw [this.1, this.2]
      simp [escapeFrom]
    | cons x xs =>
      rw [← h]
      simp only [escapeFrom]
      exact ih

/-- The bytes of a text are escaped as the text is, code point by code point. -/
theorem escapeFrom_goBytes (s : List Char) : escapeFrom 0 (goBytes s) = escapeString s := by
  induction s with
  | nil => rfl
  | cons c s ih =>
    obtain ⟨b, t, hbt⟩ := utf8Bytes_ne_nil c
    have hd := decodeRune_utf8Bytes c (goBytes s)
    have hlen : (utf8Bytes c).length - 1 = t.length := by rw [hbt]; simp
    show escapeFrom 0 (utf8Bytes c ++ goBytes s) = escapeChar c ++ escapeString s
    rw [hbt] at hd ⊢
    show escapeFrom 0 (b :: (t ++ goBytes s)) = _
    simp only [List.cons_append] at hd
    simp only [escapeFrom, hd]
    rw [← hbt, hlen, escapeFrom_skip, ih]

theorem marshalGoString_goBytes (s : String) : marshalGoString (goBytes s.data) = marshalString s := by
  simp only [marshalGoString, marshalString, escapeFrom_goBytes]


/-- The text of `marshalInventoryItem`, member by member. -/
theorem marshalInventoryItem_eq (v : InventoryItem) (p w : String)
    (hp : v.ProductID = goBytes p.data) (hw : v.WarehouseLocation = goBytes w.data) :
    marshalInventoryItem v = '{' ::
      (marshalString "productId" ++ ':' :: (marshalString p ++ ',' ::
      (marshalString "availableQuantity" ++ ':' :: (fmtInt v.AvailableQuantity ++ ',' ::
      (marshalString "reservedQuantity" ++ ':' :: (fmtInt v.ReservedQuantity ++ ',' ::
      (marshalString "totalQuantity" ++ ':' :: (fmtInt v.TotalQuantity ++ ',' ::
      (marshalString "warehouseLocation" ++ ':' :: (marshalString w ++ ',' ::
      (marshalString "lastUpdatedTimestamp" ++ ':' ::
        (fmtInt v.LastUpdatedTimestamp ++ '}' :: [])))))))))))) := by
  have k1 : "\x7b\"productId\":".data = '{' :: (marshalString "productId" ++ [':']) := rfl
  have k2 : ",\"availableQuantity\":".data
      = ',' :: (marshalString "availableQuantity" ++ [':']) := rfl
  have k3 : ",\"reservedQuantity\":".data
      = ',' :: (marshalString "reservedQuantity" ++ [':']) := rfl
  have k4 : ",\"totalQuantity\":".data = ',' :: (marshalString "totalQuantity" ++ [':']) := rfl
  have k5 : ",\"warehouseLocation\":".data
      = ',' :: (marshalString "warehouseLocation" ++ [':']) := rfl
  have k6 : ",\"lastUpdatedTimestamp\":".data
      = ',' :: (marshalString "lastUpdatedTimestamp" ++ [':']) := rfl
  unfold marshalInventoryItem
  rw [k1, k2, k3, k4, k5, k6, hp, hw, marshalGoString_goBytes, marshalGoString_goBytes]
  simp only [List.append_assoc, List.cons_append, List.nil_append, List.singleton_append]

/-- The decoder reads the encoding of an `InventoryItem` as the object of its six
members, in order, with nothing left over. -/
theorem readValue_marshalInventoryItem (v : InventoryItem) (p w : String)
    (hp : v.ProductID = goBytes p.data) (hw : v.WarehouseLocation = goBytes w.data) :
    readValue (marshalInventoryItem v) = some (JVal.obj
      [("productId".data, JVal.str p.data),
       ("availableQuantity".data, JVal.num (fmtInt v.AvailableQuantity)),
       ("reservedQuantity".data, JVal.num (fmtInt v.ReservedQuantity)),
       ("totalQuantity".data, JVal.num (fmtInt v.TotalQuantity)),
       ("warehouseLocation".data, JVal.str w.data),
       ("lastUpdatedTimestamp".data, JVal.num (fmtInt v.LastUpdatedTimestamp))], []) := by
  obtain ⟨m, hm⟩ : ∃ m, (marshalInventoryItem v).length + 1 = m + 8 := by
    refine ⟨(marshalInventoryItem v).length - 7, ?_⟩
    have : 7 ≤ (marshalInventoryItem v).length := by
      rw [marshalInventoryItem_eq v p w hp hw]
      simp only [List.length_cons, List.length_append, marshalString]
      omega
    omega
  unfold readValue
  rw [hm, marshalInventoryItem_eq v p w hp hw]
  have c1 := fun t => scanValue_marshalString (m + 5) 1 p (',' :: t)
  have c2 := fun t => scanValue_fmtInt (m + 4) 1 v.AvailableQuantity (',' :: t) ⟨t, Or.inl rfl⟩
  have c3 := fun t => scanValue_fmtInt (m + 3) 1 v.ReservedQuantity (',' :: t) ⟨t, Or.inl rfl⟩
  have c4 := fun t => scanValue_fmtInt (m + 2) 1 v.TotalQuantity (',' :: t) ⟨t, Or.inl rfl⟩
  have c5 := fun t => scanValue_marshalString (m + 1) 1 w (',' :: t)
  have c6 := scanValue_fmtInt m 1 v.LastUpdatedTimestamp ('}' :: []) ⟨[], Or.inr rfl⟩
  have m6 : scanMembers (m + 2) 1
      (marshalString "lastUpdatedTimestamp" ++ ':' ::
        (fmtInt v.LastUpdatedTimestamp ++ '}' :: []))
      = some ([("lastUpdatedTimestamp".data, JVal.num (fmtInt v.LastUpdatedTimestamp))], []) :=
    scanMembers_brace (m + 1) 1 "lastUpdatedTimestamp" _ _ [] c6
  have m5 : scanMembers (m + 3) 1
      (marshalString "warehouseLocation" ++ ':' :: (marshalString w ++ ',' ::
      (marshalString "lastUpdatedTimestamp" ++ ':' ::
        (fmtInt v.LastUpdatedTimestamp ++ '}' :: []))))
      = some ([("warehouseLocation".data, JVal.str w.data),
          ("lastUpdatedTimestamp".data, JVal.num (fmtInt v.LastUpdatedTimestamp))], []) := by
    rw [scanMembers_comma (m + 2) 1 "warehouseLocation" _ _ _ (c5 _),
      skipSpace_marshalString, m6]
    rfl
  have m4 : scanMembers (m + 4) 1
      (marshalString "totalQuantity" ++ ':' :: (fmtInt v.TotalQuantity ++ ',' ::
      (marshalString "warehouseLocation" ++ ':' :: (marshalString w ++ ',' ::
      (marshalString "lastUpdatedTimestamp" ++ ':' ::
        (fmtInt v.LastUpdatedTimestamp ++ '}' :: []))))))
      = some ([("totalQuantity".data, JVal.num (fmtInt v.TotalQuantity)),
          ("warehouseLocation".data, JVal.str w.data),
          ("lastUpdatedTimestamp".data, JVal.num (fmtInt v.LastUpdatedTimestamp))], []) := by
    rw [scanMembers_comma (m + 3) 1 "totalQuantity" _ _ _ (c4 _),
      skipSpace_marshalString, m5]
    rfl
  have m3 : scanMembers (m + 5) 1
      (marshalString "reservedQuantity" ++ ':' :: (fmtInt v.ReservedQuantity ++ ',' ::
      (marshalString "totalQuantity" ++ ':' :: (fmtInt v.TotalQuantity ++ ',' ::
      (marshalString "warehouseLocation" ++ ':' :: (marshalString w ++ ',' ::
      (marshalString "lastUpdatedTimestamp" ++ ':' ::
        (fmtInt v.LastUpdatedTimestamp ++ '}' :: []))))))))
      = some ([("reservedQuantity".data, JVal.num (fmtInt v.ReservedQuantity)),
          ("totalQuantity".data, JVal.num (fmtInt v.TotalQuantity)),
          ("warehouseLocation".data, JVal.str w.data),
          ("lastUpdatedTimestamp".data, JVal.num (fmtInt v.LastUpdatedTimestamp))], []) := by
    rw [scanMembers_comma (m + 4) 1 "reservedQuantity" _ _ _ (c3 _),
      skipSpace_marshalString, m4]
    rfl
  have m2 : scanMembers (m + 6) 1
      (marshalString "availableQuantity" ++ ':' :: (fmtInt v.AvailableQuantity ++ ',' ::
      (marshalString "reservedQuantity" ++ ':' :: (fmtInt v.ReservedQuantity ++ ',' ::
      (marshalString "totalQuantity" ++ ':' :: (fmtInt v.TotalQuantity ++ ',' ::
      (marshalString "warehouseLocation" ++ ':' :: (marshalString w ++ ',' ::
      (marshalString "lastUpdatedTimestamp" ++ ':' ::
        (fmtInt v.LastUpdatedTimestamp ++ '}' :: []))))))))))
      = some ([("availableQuantity".data, JVal.num (fmtInt v.AvailableQuantity)),
          ("reservedQuantity".data, JVal.num (fmtInt v.ReservedQuantity)),
          ("totalQuantity".data, JVal.num (fmtInt v.TotalQuantity)),
          ("warehouseLocation".data, JVal.str w.data),
          ("lastUpdatedTimestamp".data, JVal.num (fmtInt v.LastUpdatedTimestamp))], []) := by
    rw [scanMembers_comma (m + 5) 1 "availableQuantity" _ _ _ (c2 _),
      skipSpace_marshalString, m3]
    rfl
  have m1 : scanMembers (m + 7) 1
      (marshalString "productId" ++ ':' :: (marshalString p ++ ',' ::
      (marshalString "availableQuantity" ++ ':' :: (fmtInt v.AvailableQuantity ++ ',' ::
      (marshalString "reservedQuantity" ++ ':' :: (fmtInt v.ReservedQuantity ++ ',' ::
      (marshalString "totalQuantity" ++ ':' :: (fmtInt v.TotalQuantity ++ ',' ::
      (marshalString "warehouseLocation" ++ ':' :: (marshalString w ++ ',' ::
      (marshalString "lastUpdatedTimestamp" ++ ':' ::
        (fmtInt v.LastUpdatedTimestamp ++ '}' :: []))))))))))))
      = some ([("productId".data, JVal.str p.data),
          ("availableQuantity".data, JVal.num (fmtInt v.AvailableQuantity)),
          ("reservedQuantity".data, JVal.num (fmtInt v.ReservedQuantity)),
          ("totalQuantity".data, JVal.num (fmtInt v.TotalQuantity)),
          ("warehouseLocation".data, JVal.str w.data),
          ("lastUpdatedTimestamp".data, JVal.num (fmtInt v.LastUpdatedTimestamp))], []) := by
    rw [scanMembers_comma (m + 6) 1 "productId" _ _ _ (c1 _),
      skipSpace_marshalString, m2]
    rfl
  have hsp : ∀ t, skipSpace ('{' :: t) = '{' :: t := fun _ => rfl
  have hq : ∀ t, marshalString "productId" ++ t = '"' :: ("productId\"".data ++ t) :=
    fun _ => rfl
  rw [hq] at m1 ⊢
  have hsq : ∀ t, skipSpace ('"' :: t) = '"' :: t := fun _ => rfl
  simp only [scanValue, hsp, if_true, hsq, show ¬ (maxNestingDepth < 0 + 1) by decide,
    if_false, show ('"' : Char) ≠ '}' by decide, Nat.zero_add]
  rw [m1]


end Inventory

namespace Inventory

/-! ## The scanner looks at most one character past a value -/

end Inventory

namespace Inventory

end Inventory

namespace Inventory

end Inventory

namespace Inventory

/-! ## Lemmas for the claims -/

theorem fitsInt_64_of_32 (n : Int) (h : fitsInt 32 n = true) : fitsInt 64 n = true := by
  simp only [fitsInt, Bool.and_eq_true, decide_eq_true_eq] at h ⊢
  constructor <;> omega

theorem storeInt_fmtInt (bits : Nat) (cur n : Int) (h64 : fitsInt 64 n = true)
    (h : fitsInt bits n = true) : storeInt bits cur (JVal.num (fmtInt n)) = some n := by
  simp only [storeInt, parseInt64_fmtInt n h64, h, if_true]

/-- Decoding the encoding of an `InventoryItem` whose strings are valid UTF-8 and whose
integers are in range gives the item back. -/
theorem decodeInventoryItem_marshal (v : InventoryItem)
    (hp : validUTF8 v.ProductID) (hw : validUTF8 v.WarehouseLocation)
    (ha : fitsInt 32 v.AvailableQuantity = true) (hr : fitsInt 32 v.ReservedQuantity = true)
    (ht : fitsInt 32 v.TotalQuantity = true) (hl : fitsInt 64 v.LastUpdatedTimestamp = true) :
    decodeInventoryItem (String.mk (marshalInventoryItem v)) = Except.ok v := by
  obtain ⟨p, hp⟩ := hp
  obtain ⟨w, hw⟩ := hw
  have f1 : findField inventoryItemFields "productId".data = some "productId" := by decide
  have f2 : findField inventoryItemFields "availableQuantity".data
      = some "availableQuantity" := by decide
  have f3 : findField inventoryItemFields "reservedQuantity".data
      = some "reservedQuantity" := by decide
  have f4 : findField inventoryItemFields "totalQuantity".data = some "totalQuantity" := by
    decide
  have f5 : findField inventoryItemFields "warehouseLocation".data
      = some "warehouseLocation" := by decide
  have f6 : findField inventoryItemFields "lastUpdatedTimestamp".data
      = some "lastUpdatedTimestamp" := by decide
  have s2 := fun cur => storeInt_fmtInt 32 cur v.AvailableQuantity (fitsInt_64_of_32 _ ha) ha
  have s3 := fun cur => storeInt_fmtInt 32 cur v.ReservedQuantity (fitsInt_64_of_32 _ hr) hr
  have s4 := fun cur => storeInt_fmtInt 32 cur v.TotalQuantity (fitsInt_64_of_32 _ ht) ht
  have s6 := fun cur => storeInt_fmtInt 64 cur v.LastUpdatedTimestamp hl hl
  have hread := readValue_marshalInventoryItem v (String.mk p) (String.mk w) hp.symm hw.symm
  simp only [decodeInventoryItem, decodeStruct, hread, unmarshalStruct,
    List.foldl_cons, List.foldl_nil, storeInventoryItemField, f1, f2, f3, f4, f5, f6,
    storeGoString, s2, s3, s4, s6, hp, hw]
  simp


end Inventory

namespace Inventory

/-! ## The claims -/

/-- C1 as stated fails: a response with status 302 and a `Location` header is not
handed back to the operation.  The client follows it, and `GetInventory` returns the item
decoded from the answer to the second request, with no error. -/
theorem followed_redirect_counterexample :
    (movedEnv "http://inventory:8080/moved" ⟨200, "\x7b\"productId\":\"sku-42\",\"availableQuantity\":7\x7d"⟩).RoundTrip
        ⟨"GET", "http://inventory:8080/api/v1/inventory/sku-42", none, none⟩
      = Except.ok ⟨⟨302, ""⟩, "http://inventory:8080/moved"⟩ ∧
    (GetInventory defaultClient (movedEnv "http://inventory:8080/moved" ⟨200, "\x7b\"productId\":\"sku-42\",\"availableQuantity\":7\x7d"⟩)
      Context.live "sku-42").sent
      = [⟨"GET", "http://inventory:8080/api/v1/inventory/sku-42", none, none⟩] ∧
    (GetInventory defaultClient (movedEnv "http://inventory:8080/moved" ⟨200, "\x7b\"productId\":\"sku-42\",\"availableQuantity\":7\x7d"⟩)
      Context.live "sku-42").value = some ⟨goBytes "sku-42".data, 7, 0, 0, [], 0⟩ ∧
    (GetInventory defaultClient (movedEnv "http://inventory:8080/moved" ⟨200, "\x7b\"productId\":\"sku-42\",\"availableQuantity\":7\x7d"⟩)
      Context.live "sku-42").err = none :=
  ⟨rfl, rfl, rfl, rfl⟩

/-- C1, amended. A response that the HTTP client hands back to the operation with a
status other than 200 makes each operation return no result (nil, nil, false) and the
error whose message ends with the status code in decimal, whatever the body.  The client
hands back every response that is not a redirect it follows: one whose status is none
of 301, 302, 303, 307 and 308, or that has no `Location`.  The status code can be read
back from the error: two status codes that give the same error are equal. -/
theorem returned_non200_status_is_error (c : InventoryServiceClient) (env : Env) (ctx : Context)
    (productID reservationID : String) (items : Option (List CartItemForInventory))
    (resp : Response) (hstatus : resp.StatusCode ≠ 200) :
    (∀ req, NewRequestWithContext env ctx "GET"
        (c.baseURL ++ "/api/v1/inventory/" ++ productID) none = Except.ok req →
      env.Do req = Except.ok resp →
      (GetInventory c env ctx productID).value = none ∧
      (GetInventory c env ctx productID).err = some (GoError.errorf
        ("获取库存信息失败，状态码: " ++ String.mk (fmtInt resp.StatusCode)))) ∧
    (∀ req, NewRequestWithContext env ctx "POST"
        (c.baseURL ++ "/api/v1/inventory/check-availability")
        (some (String.mk (marshalCheckAvailabilityRequest { Items := items }))) = Except.ok req →
      env.Do { req with ContentType := some "application/json" } = Except.ok resp →
      (CheckAvailability c env ctx items).value = none ∧
      (CheckAvailability c env ctx items).err = some (GoError.errorf
        ("检查商品可用性失败，状态码: " ++ String.mk (fmtInt resp.StatusCode)))) ∧
    (∀ req, NewRequestWithContext env ctx "POST"
        (c.baseURL ++ "/api/v1/inventory/reserve?reservationId=" ++ reservationID)
        (some (String.mk (marshalCartItems items))) = Except.ok req →
      env.Do { req with ContentType := some "application/json" } = Except.ok resp →
      (ReserveInventory c env ctx items reservationID).value = false ∧
      (ReserveInventory c env ctx items reservationID).err = some (GoError.errorf
        ("预留库存失败，状态码: " ++ String.mk (fmtInt resp.StatusCode)))) ∧
    (∀ req, NewRequestWithContext env ctx "POST"
        (c.baseURL ++ "/api/v1/inventory/release?reservationId=" ++ reservationID) none = Except.ok req →
      env.Do req = Except.ok resp →
      (ReleaseInventory c env ctx reservationID).value = false ∧
      (ReleaseInventory c env ctx reservationID).err = some (GoError.errorf
        ("释放库存失败，状态码: " ++ String.mk (fmtInt resp.StatusCode)))) ∧
    (∀ req reply, env.RoundTrip req = Except.ok reply → reply.resp = resp →
      (redirectBehavior req.Method resp.StatusCode = none ∨ reply.Location = "") →
      env.Do req = Except.ok resp) ∧
    (∀ method : String, resp.StatusCode ≠ 301 → resp.StatusCode ≠ 302 →
      resp.StatusCode ≠ 303 → resp.StatusCode ≠ 307 → resp.StatusCode ≠ 308 →
      redirectBehavior method resp.StatusCode = none) ∧
    (∀ (text : String) (s : Int),
      GoError.errorf (text ++ String.mk (fmtInt s))
        = GoError.errorf (text ++ String.mk (fmtInt resp.StatusCode)) →
      s = resp.StatusCode) := by
  refine ⟨?_, ?_, ?_, ?_, ?_, ?_, ?_⟩
  · intro req hreq hdo
    rw [GetInventory_of_status hreq hdo hstatus]; exact ⟨rfl, rfl⟩
  · intro req hreq hdo
    rw [CheckAvailability_of_status hreq hdo hstatus]; exact ⟨rfl, rfl⟩
  · intro req hreq hdo
    rw [ReserveInventory_of_status hreq hdo hstatus]; exact ⟨rfl, rfl⟩
  · intro req hreq hdo
    rw [ReleaseInventory_of_status hreq hdo hstatus]; exact ⟨rfl, rfl⟩
  · intro req reply hrt hresp hfinal
    subst hresp
    exact (Do_of_final_reply env req reply hrt hfinal).1
  · intro method h1 h2 h3 h4 h5
    simp only [redirectBehavior, h1, h2, h3, h4, h5, or_self, if_false]
  · intro text s h
    have h1 := congrArg String.data (GoError.errorf.inj h)
    simp only [String.data_append, List.append_cancel_left_eq] at h1
    exact fmtInt_injective s resp.StatusCode h1

/-- C1 amended, with the scenario of the specification and its like for the other
operations: against a stub that answers 404, here with a body that would decode, each
operation returns no result and the error of status 404. -/
theorem returned_non200_status_is_error_witness :
    ((GetInventory defaultClient (stubEnv ⟨404, "\x7b\"productId\":\"sku-42\",\"availableQuantity\":7\x7d"⟩) Context.live "sku-42").value = none ∧
      (GetInventory defaultClient (stubEnv ⟨404, "\x7b\"productId\":\"sku-42\",\"availableQuantity\":7\x7d"⟩) Context.live "sku-42").err
        = some (GoError.errorf "获取库存信息失败，状态码: 404")) ∧
    ((CheckAvailability defaultClient (stubEnv ⟨404, "\x7b\"productId\":\"sku-42\",\"availableQuantity\":7\x7d"⟩) Context.live
        (some [⟨"A", 2⟩])).value = none ∧
      (CheckAvailability defaultClient (stubEnv ⟨404, "\x7b\"productId\":\"sku-42\",\"availableQuantity\":7\x7d"⟩) Context.live
        (some [⟨"A", 2⟩])).err = some (GoError.errorf "检查商品可用性失败，状态码: 404")) ∧
    ((ReserveInventory defaultClient (stubEnv ⟨404, "\x7b\"productId\":\"sku-42\",\"availableQuantity\":7\x7d"⟩) Context.live
        (some [⟨"A", 2⟩]) "r1").value = false ∧
      (ReserveInventory defaultClient (stubEnv ⟨404, "\x7b\"productId\":\"sku-42\",\"availableQuantity\":7\x7d"⟩) Context.live
        (some [⟨"A", 2⟩]) "r1").err = some (GoError.errorf "预留库存失败，状态码: 404")) ∧
    ((ReleaseInventory defaultClient (stubEnv ⟨404, "\x7b\"productId\":\"sku-42\",\"availableQuantity\":7\x7d"⟩) Context.live "r1").value = false ∧
      (ReleaseInventory defaultClient (stubEnv ⟨404, "\x7b\"productId\":\"sku-42\",\"availableQuantity\":7\x7d"⟩) Context.live "r1").err
        = some (GoError.errorf "释放库存失败，状态码: 404")) ∧
    (stubEnv ⟨404, "\x7b\"productId\":\"sku-42\",\"availableQuantity\":7\x7d"⟩).Do
        ⟨"GET", "http://inventory:8080/api/v1/inventory/sku-42", none, none⟩
      = Except.ok ⟨404, "\x7b\"productId\":\"sku-42\",\"availableQuantity\":7\x7d"⟩ :=
  ⟨(returned_non200_status_is_error defaultClient (stubEnv ⟨404, "\x7b\"productId\":\"sku-42\",\"availableQuantity\":7\x7d"⟩) Context.live
      "sku-42" "r1" (some [⟨"A", 2⟩]) ⟨404, "\x7b\"productId\":\"sku-42\",\"availableQuantity\":7\x7d"⟩ (by decide)).1
      ⟨"GET", "http://inventory:8080/api/v1/inventory/sku-42", none, none⟩ rfl rfl,
    (returned_non200_status_is_error defaultClient (stubEnv ⟨404, "\x7b\"productId\":\"sku-42\",\"availableQuantity\":7\x7d"⟩) Context.live
      "sku-42" "r1" (some [⟨"A", 2⟩]) ⟨404, "\x7b\"productId\":\"sku-42\",\"availableQuantity\":7\x7d"⟩ (by decide)).2.1
      ⟨"POST", "http://inventory:8080/api/v1/inventory/check-availability",
        some "\x7b\"items\":[\x7b\"productId\":\"A\",\"quantity\":2\x7d]\x7d", none⟩ rfl rfl,
    (returned_non200_status_is_error defaultClient (stubEnv ⟨404, "\x7b\"productId\":\"sku-42\",\"availableQuantity\":7\x7d"⟩) Context.live
      "sku-42" "r1" (some [⟨"A", 2⟩]) ⟨404, "\x7b\"productId\":\"sku-42\",\"availableQuantity\":7\x7d"⟩ (by decide)).2.2.1
      ⟨"POST", "http://inventory:8080/api/v1/inventory/reserve?reservationId=r1",
        some "[\x7b\"productId\":\"A\",\"quantity\":2\x7d]", none⟩ rfl rfl,
    (returned_non200_status_is_error defaultClient (stubEnv ⟨404, "\x7b\"productId\":\"sku-42\",\"availableQuantity\":7\x7d"⟩) Context.live
      "sku-42" "r1" (some [⟨"A", 2⟩]) ⟨404, "\x7b\"productId\":\"sku-42\",\"availableQuantity\":7\x7d"⟩ (by decide)).2.2.2.1
      ⟨"POST", "http://inventory:8080/api/v1/inventory/release?reservationId=r1", none, none⟩
      rfl rfl,
    (returned_non200_status_is_error defaultClient (stubEnv ⟨404, "\x7b\"productId\":\"sku-42\",\"availableQuantity\":7\x7d"⟩) Context.live
      "sku-42" "r1" (some [⟨"A", 2⟩]) ⟨404, "\x7b\"productId\":\"sku-42\",\"availableQuantity\":7\x7d"⟩ (by decide)).2.2.2.2.1
      ⟨"GET", "http://inventory:8080/api/v1/inventory/sku-42", none, none⟩
      ⟨⟨404, "\x7b\"productId\":\"sku-42\",\"availableQuantity\":7\x7d"⟩, ""⟩ rfl rfl (Or.inl rfl)⟩

/-- C2. When the HTTP client hands back a 200 response whose body decodes as a
`ReservationResponse`, both `ReserveInventory` and `ReleaseInventory` return its
`Success` flag and no error, whichever value the flag has; and a response with status
200 is always handed back. -/
theorem reservation_flag_is_returned (c : InventoryServiceClient) (env : Env) (ctx : Context)
    (items : Option (List CartItemForInventory)) (reservationID : String)
    (resp : Response) (r : ReservationResponse)
    (hstatus : resp.StatusCode = 200)
    (hdec : decodeReservationResponse resp.Body = Except.ok r) :
    (∀ req, NewRequestWithContext env ctx "POST"
        (c.baseURL ++ "/api/v1/inventory/reserve?reservationId=" ++ reservationID)
        (some (String.mk (marshalCartItems items))) = Except.ok req →
      env.Do { req with ContentType := some "application/json" } = Except.ok resp →
      (ReserveInventory c env ctx items reservationID).value = r.Success ∧
      (ReserveInventory c env ctx items reservationID).err = none) ∧
    (∀ req, NewRequestWithContext env ctx "POST"
        (c.baseURL ++ "/api/v1/inventory/release?reservationId=" ++ reservationID) none
        = Except.ok req →
      env.Do req = Except.ok resp →
      (ReleaseInventory c env ctx reservationID).value = r.Success ∧
      (ReleaseInventory c env ctx reservationID).err = none) ∧
    (∀ req reply, env.RoundTrip req = Except.ok reply → reply.resp = resp →
      env.Do req = Except.ok resp) := by
  refine ⟨?_, ?_, ?_⟩
  · intro req hreq hdo
    rw [ReserveInventory_of_decoded hreq hdo hstatus hdec]; exact ⟨rfl, rfl⟩
  · intro req hreq hdo
    rw [ReleaseInventory_of_decoded hreq hdo hstatus hdec]; exact ⟨rfl, rfl⟩
  · intro req reply hrt he
    subst he
    exact (Do_of_status_200 env req reply hrt hstatus).1

/-- C2, the scenario of the specification and its three companions: reservation `r1`
refused for insufficient stock is the result `false` with no error, an accepted one is
`true` with no error, for `ReserveInventory` and for `ReleaseInventory`. -/
theorem reservation_flag_is_returned_witness :
    ((ReserveInventory defaultClient (stubEnv ⟨200, "\x7b\"success\":false,\"reservationId\":\"r1\",\"message\":\"insufficient stock\"\x7d"⟩) Context.live
        (some [⟨"A", 2⟩]) "r1").value = false ∧
      (ReserveInventory defaultClient (stubEnv ⟨200, "\x7b\"success\":false,\"reservationId\":\"r1\",\"message\":\"insufficient stock\"\x7d"⟩) Context.live
        (some [⟨"A", 2⟩]) "r1").err = none) ∧
    ((ReserveInventory defaultClient (stubEnv ⟨200, "\x7b\"success\":true,\"reservationId\":\"r1\",\"message\":\"reserved\"\x7d"⟩) Context.live
        (some [⟨"A", 2⟩]) "r1").value = true ∧
      (ReserveInventory defaultClient (stubEnv ⟨200, "\x7b\"success\":true,\"reservationId\":\"r1\",\"message\":\"reserved\"\x7d"⟩) Context.live
        (some [⟨"A", 2⟩]) "r1").err = none) ∧
    ((ReleaseInventory defaultClient (stubEnv ⟨200, "\x7b\"success\":false,\"reservationId\":\"r1\",\"message\":\"insufficient stock\"\x7d"⟩) Context.live "r1").value = false ∧
      (ReleaseInventory defaultClient (stubEnv ⟨200, "\x7b\"success\":false,\"reservationId\":\"r1\",\"message\":\"insufficient stock\"\x7d"⟩) Context.live "r1").err = none) ∧
    ((ReleaseInventory defaultClient (stubEnv ⟨200, "\x7b\"success\":true,\"reservationId\":\"r1\",\"message\":\"reserved\"\x7d"⟩) Context.live "r1").value = true ∧
      (ReleaseInventory defaultClient (stubEnv ⟨200, "\x7b\"success\":true,\"reservationId\":\"r1\",\"message\":\"reserved\"\x7d"⟩) Context.live "r1").err = none) :=
  ⟨(reservation_flag_is_returned defaultClient (stubEnv ⟨200, "\x7b\"success\":false,\"reservationId\":\"r1\",\"message\":\"insufficient stock\"\x7d"⟩) Context.live
      (some [⟨"A", 2⟩]) "r1" ⟨200, "\x7b\"success\":false,\"reservationId\":\"r1\",\"message\":\"insufficient stock\"\x7d"⟩ ⟨false, "r1", "insufficient stock"⟩ rfl rfl).1
      ⟨"POST", "http://inventory:8080/api/v1/inventory/reserve?reservationId=r1",
        some "[\x7b\"productId\":\"A\",\"quantity\":2\x7d]", none⟩ rfl rfl,
    (reservation_flag_is_returned defaultClient (stubEnv ⟨200, "\x7b\"success\":true,\"reservationId\":\"r1\",\"message\":\"reserved\"\x7d"⟩) Context.live
      (some [⟨"A", 2⟩]) "r1" ⟨200, "\x7b\"success\":true,\"reservationId\":\"r1\",\"message\":\"reserved\"\x7d"⟩ ⟨true, "r1", "reserved"⟩ rfl rfl).1
      ⟨"POST", "http://inventory:8080/api/v1/inventory/reserve?reservationId=r1",
        some "[\x7b\"productId\":\"A\",\"quantity\":2\x7d]", none⟩ rfl rfl,
    (reservation_flag_is_returned defaultClient (stubEnv ⟨200, "\x7b\"success\":false,\"reservationId\":\"r1\",\"message\":\"insufficient stock\"\x7d"⟩) Context.live
      (some [⟨"A", 2⟩]) "r1" ⟨200, "\x7b\"success\":false,\"reservationId\":\"r1\",\"message\":\"insufficient stock\"\x7d"⟩ ⟨false, "r1", "insufficient stock"⟩ rfl rfl).2.1
      ⟨"POST", "http://inventory:8080/api/v1/inventory/release?reservationId=r1", none, none⟩
      rfl rfl,
    (reservation_flag_is_returned defaultClient (stubEnv ⟨200, "\x7b\"success\":true,\"reservationId\":\"r1\",\"message\":\"reserved\"\x7d"⟩) Context.live
      (some [⟨"A", 2⟩]) "r1" ⟨200, "\x7b\"success\":true,\"reservationId\":\"r1\",\"message\":\"reserved\"\x7d"⟩ ⟨true, "r1", "reserved"⟩ rfl rfl).2.1
      ⟨"POST", "http://inventory:8080/api/v1/inventory/release?reservationId=r1", none, none⟩
      rfl rfl⟩

set_option maxRecDepth 100000 in
/-- C5 as stated fails: a Go string need not be valid UTF-8, and `json.Marshal` writes a
byte that is not part of a valid encoding as the escape of U+FFFD.  The item whose
`ProductID` is the three bytes `a`, `0xff`, `b` is encoded with the escape in the place
of `0xff` and comes back with the five bytes of `a`, U+FFFD, `b`. -/
theorem invalid_utf8_round_trip_counterexample :
    String.mk (marshalInventoryItem ⟨[97, 255, 98], 1, 0, 1, [], 0⟩)
      = "\x7b\"productId\":\"a\\ufffdb\",\"availableQuantity\":1,\"reservedQuantity\":0,\"totalQuantity\":1,\"warehouseLocation\":\"\",\"lastUpdatedTimestamp\":0\x7d" ∧
    (GetInventory defaultClient
      (stubEnv ⟨200, String.mk (marshalInventoryItem ⟨[97, 255, 98], 1, 0, 1, [], 0⟩)⟩)
      Context.live "sku-42").value = some ⟨[97, 239, 191, 189, 98], 1, 0, 1, [], 0⟩ ∧
    (GetInventory defaultClient
      (stubEnv ⟨200, String.mk (marshalInventoryItem ⟨[97, 255, 98], 1, 0, 1, [], 0⟩)⟩)
      Context.live "sku-42").value ≠ some ⟨[97, 255, 98], 1, 0, 1, [], 0⟩ :=
  ⟨rfl, rfl, by decide⟩

/-- C5, amended. Round trip: when the HTTP client hands back a 200 response whose body is
the JSON encoding of an `InventoryItem` whose two strings are valid UTF-8 (its three
quantities values of `int32`, its timestamp a value of `int64`), `GetInventory` returns
an item equal to it in every field, and no error; and a response with status 200 is
always handed back. -/
theorem inventory_item_round_trip (c : InventoryServiceClient) (env : Env) (ctx : Context)
    (productID : String) (v : InventoryItem) (resp : Response)
    (hp : validUTF8 v.ProductID) (hw : validUTF8 v.WarehouseLocation)
    (ha : fitsInt 32 v.AvailableQuantity = true) (hr : fitsInt 32 v.ReservedQuantity = true)
    (ht : fitsInt 32 v.TotalQuantity = true) (hl : fitsInt 64 v.LastUpdatedTimestamp = true)
    (hstatus : resp.StatusCode = 200)
    (hbody : resp.Body = String.mk (marshalInventoryItem v)) :
    (∀ req, NewRequestWithContext env ctx "GET"
        (c.baseURL ++ "/api/v1/inventory/" ++ productID) none = Except.ok req →
      env.Do req = Except.ok resp →
      (GetInventory c env ctx productID).value = some v ∧
      (GetInventory c env ctx productID).err = none) ∧
    (∀ req reply, env.RoundTrip req = Except.ok reply → reply.resp = resp →
      env.Do req = Except.ok resp) := by
  refine ⟨?_, ?_⟩
  · intro req hreq hdo
    have hdec : decodeInventoryItem resp.Body = Except.ok v := by
      rw [hbody]; exact decodeInventoryItem_marshal v hp hw ha hr ht hl
    rw [GetInventory_of_decoded hreq hdo hstatus hdec]; exact ⟨rfl, rfl⟩
  · intro req reply hrt he
    subst he
    exact (Do_of_status_200 env req reply hrt hstatus).1

set_option maxRecDepth 100000 in
/-- C5 amended, at a concrete item, with characters that the encoding escapes, a letter of
two bytes, a negative quantity and the largest `int32`. -/
theorem inventory_item_round_trip_witness :
    String.mk (marshalInventoryItem ⟨goBytes "sku<42>\"é".data, -5, 2147483647, 0, goBytes "aisle 7\n".data, 1700000000000⟩)
      = "\x7b\"productId\":\"sku\\u003c42\\u003e\\\"é\",\"availableQuantity\":-5,\"reservedQuantity\":2147483647,\"totalQuantity\":0,\"warehouseLocation\":\"aisle 7\\n\",\"lastUpdatedTimestamp\":1700000000000\x7d" ∧
    (GetInventory defaultClient (stubEnv ⟨200, String.mk (marshalInventoryItem ⟨goBytes "sku<42>\"é".data, -5, 2147483647, 0, goBytes "aisle 7\n".data, 1700000000000⟩)⟩)
      Context.live "sku-42").value = some ⟨goBytes "sku<42>\"é".data, -5, 2147483647, 0, goBytes "aisle 7\n".data, 1700000000000⟩ ∧
    (GetInventory defaultClient (stubEnv ⟨200, String.mk (marshalInventoryItem ⟨goBytes "sku<42>\"é".data, -5, 2147483647, 0, goBytes "aisle 7\n".data, 1700000000000⟩)⟩)
      Context.live "sku-42").err = none :=
  ⟨rfl,
    (inventory_item_round_trip defaultClient
      (stubEnv ⟨200, String.mk (marshalInventoryItem ⟨goBytes "sku<42>\"é".data, -5, 2147483647, 0, goBytes "aisle 7\n".data, 1700000000000⟩)⟩) Context.live "sku-42" ⟨goBytes "sku<42>\"é".data, -5, 2147483647, 0, goBytes "aisle 7\n".data, 1700000000000⟩
      ⟨200, String.mk (marshalInventoryItem ⟨goBytes "sku<42>\"é".data, -5, 2147483647, 0, goBytes "aisle 7\n".data, 1700000000000⟩)⟩
      ⟨"sku<42>\"é".data, rfl⟩ ⟨"aisle 7\n".data, rfl⟩
      (by decide) (by decide) (by decide) (by decide) rfl rfl).1
      ⟨"GET", "http://inventory:8080/api/v1/inventory/sku-42", none, none⟩ rfl rfl⟩

/-- C6 as stated fails: for the nil slice the body sent is `{"items":null}`, whose
`items` member is `null` and not the empty list. -/
theorem empty_lines_counterexample :
    (CheckAvailability defaultClient (stubEnv ⟨200, "\x7b\x7d"⟩) Context.live none).sent
      = [⟨"POST", "http://inventory:8080/api/v1/inventory/check-availability",
          some "\x7b\"items\":null\x7d", some "application/json"⟩] ∧
    (readValue "\x7b\"items\":null\x7d".data).map (fun p => p.1)
      = some (JVal.obj [("items".data, JVal.null)]) ∧
    JVal.obj [("items".data, JVal.null)] ≠ JVal.obj [("items".data, JVal.arr [])] :=
  ⟨rfl, rfl, by simp⟩

/-- C6, amended. An empty sequence of lines is never refused: whenever the request can
be built it is sent, as one POST, with the body `{"items":[]}` for an allocated
sequence of length zero and `{"items":null}` for the nil sequence. -/
theorem empty_lines_are_sent (c : InventoryServiceClient) (env : Env)
    (hurl : env.parseURL (c.baseURL ++ "/api/v1/inventory/check-availability") = none) :
    (CheckAvailability c env Context.live (some [])).sent
      = [⟨"POST", c.baseURL ++ "/api/v1/inventory/check-availability",
          some "\x7b\"items\":[]\x7d", some "application/json"⟩] ∧
    (CheckAvailability c env Context.live none).sent
      = [⟨"POST", c.baseURL ++ "/api/v1/inventory/check-availability",
          some "\x7b\"items\":null\x7d", some "application/json"⟩] := by
  have hreq : ∀ items, NewRequestWithContext env Context.live "POST"
      (c.baseURL ++ "/api/v1/inventory/check-availability")
      (some (String.mk (marshalCheckAvailabilityRequest { Items := items })))
      = Except.ok ⟨"POST", c.baseURL ++ "/api/v1/inventory/check-availability",
          some (String.mk (marshalCheckAvailabilityRequest { Items := items })), none⟩ := by
    intro items
    simp only [NewRequestWithContext, hurl]
  exact ⟨CheckAvailability_sent_of_newRequest (hreq (some [])),
    CheckAvailability_sent_of_newRequest (hreq none)⟩

/-- C6 amended, with the stub service. -/
theorem empty_lines_are_sent_witness :
    (CheckAvailability defaultClient (stubEnv ⟨200, "\x7b\x7d"⟩) Context.live (some [])).sent
      = [⟨"POST", "http://inventory:8080/api/v1/inventory/check-availability",
          some "\x7b\"items\":[]\x7d", some "application/json"⟩] :=
  (empty_lines_are_sent defaultClient (stubEnv ⟨200, "\x7b\x7d"⟩) rfl).1

/-- C9 as stated fails: with `INVENTORY_ADDR` set to the empty string the base URL is
the default, not the value of the variable. -/
theorem base_url_counterexample :
    (fun k => if k = "INVENTORY_ADDR" then some "" else none : Environ) "INVENTORY_ADDR"
      = some "" ∧
    (NewInventoryServiceClient
      (fun k => if k = "INVENTORY_ADDR" then some "" else none)).baseURL
      = "http://inventory:8080" ∧
    (NewInventoryServiceClient
      (fun k => if k = "INVENTORY_ADDR" then some "" else none)).baseURL ≠ "" :=
  ⟨rfl, rfl, by decide⟩

/-- C9, amended. The constructor always returns a client with a timeout of 30 seconds;
its base URL is the value of `INVENTORY_ADDR` when the variable is set to a non-empty
value, and `http://inventory:8080` when it is unset or set to the empty string. -/
theorem base_url_from_environment (environ : Environ) :
    (NewInventoryServiceClient environ).httpClient.Timeout = 30 * 1000000000 ∧
    (∀ v, environ "INVENTORY_ADDR" = some v → v ≠ "" →
      (NewInventoryServiceClient environ).baseURL = v) ∧
    (environ "INVENTORY_ADDR" = none →
      (NewInventoryServiceClient environ).baseURL = "http://inventory:8080") ∧
    (environ "INVENTORY_ADDR" = some "" →
      (NewInventoryServiceClient environ).baseURL = "http://inventory:8080") := by
  refine ⟨rfl, ?_, ?_, ?_⟩
  · intro v hv hne
    simp [NewInventoryServiceClient, Getenv, hv, hne]
  · intro hv
    simp [NewInventoryServiceClient, Getenv, hv]
  · intro hv
    simp [NewInventoryServiceClient, Getenv, hv]

/-- C9 amended, at a concrete environment that sets the address. -/
theorem base_url_from_environment_witness :
    (NewInventoryServiceClient
      (fun k => if k = "INVENTORY_ADDR" then some "http://10.0.0.7:9000" else none)).baseURL
      = "http://10.0.0.7:9000" :=
  (base_url_from_environment
    (fun k => if k = "INVENTORY_ADDR" then some "http://10.0.0.7:9000" else none)).2.1
    "http://10.0.0.7:9000" rfl (by decide)

end Inventory
